import Mathlib

/-!
Shallow embedding of `ezmesh/geometry.py`.

The gmsh kernel is modelled as an opaque collaborator that hands out integer
tags from a counter and records every kernel call in an event trace.  Entity
objects (`Point`, `Line`, `CurveLoop`, `PlaneSurface`, `BoundaryLayer`) are
kept in an arena and referenced by index, which mirrors Python's reference
semantics: two distinct indices are two distinct object instances even when
their payload (coordinates, ...) coincides.  The per-object mutable state
(`tag`, `before_sync_initiated`, `after_sync_initiated`, `line_tags`) lives in
a `GState` alongside the kernel trace.
-/

/-- Kernel calls issued by the program, in order.  Tags returned by creation
calls are recorded inside the event. -/
inductive Event where
  | addPoint (x y z mesh_size : Rat) (tag : Nat)
  | addLine (startTag endTag : Nat) (tag : Nat)
  | addCurveLoop (lineTags : List Nat) (tag : Nat)
  | addPlaneSurface (loopTags : List Nat) (tag : Nat)
  | synchronize
  | setTransfiniteCurve (tag : Nat) (numNodes : Int) (meshType : String) (coeff : Rat)
  | setTransfiniteSurface (tag : Nat) (cornerTags : List Nat)
  | setRecombine (dim : Nat) (tag : Nat)
  | addPhysicalGroup (dim : Nat) (tags : List Nat) (groupTag : Nat)
  | setPhysicalName (dim : Nat) (tag : Nat) (name : String)
  | fieldAdd (kind : String) (tag : Nat)
  | fieldSetNumbers (tag : Nat) (key : String) (values : List Nat)
  | fieldSetNumber (tag : Nat) (key : String) (value : Rat)
  | fieldSetAsBoundaryLayer (tag : Nat)
  | generateMesh
  | setNumberOption (name : String) (value : Rat)
  | initGmsh
  | finalizeGmsh
  | gmshWrite (filename : String)
deriving DecidableEq, Repr

/-- Payload of the `TransfiniteLine` subclass of `Line`
(`cell_count`, `mesh_type`, `coeff`). -/
structure TransfiniteData where
  cell_count : Int
  mesh_type : String := "Progression"
  coeff : Rat := 1
deriving DecidableEq, Repr

/-- The `Point` dataclass: `coord`, `mesh_size`, and the (never written)
`label : Optional[int]`.  `__post_init__` reads `x`/`y` from the first two
coordinates and `z` from the third when present. -/
structure Point where
  coord : List Rat
  mesh_size : Rat
  label : Option Int := none
deriving DecidableEq, Repr

/-- `self.x = self.coord[0]` (an out-of-range read is a caller error in the
source; the embedding totalises it with 0). -/
def Point.x (p : Point) : Rat := p.coord.getD 0 0

/-- `self.y = self.coord[1]`. -/
def Point.y (p : Point) : Rat := p.coord.getD 1 0

/-- `self.z = self.coord[2] if len(self.coord) == 3 else 0`. -/
def Point.z (p : Point) : Rat := if p.coord.length = 3 then p.coord.getD 2 0 else 0

/-- The `Line` dataclass.  `start`/`endp` are arena indices of the endpoint
`Point` objects (`endp` renders the source's `end`, a Lean keyword);
`transfinite = some td` encodes that the object is a `TransfiniteLine`. -/
structure Line where
  start : Nat
  endp : Nat
  label : Option String := none
  transfinite : Option TransfiniteData := none
deriving DecidableEq, Repr

/-- The `BoundaryLayer` dataclass (the only concrete `Field`): the five
optional numbers and the two booleans. -/
structure BoundaryLayer where
  aniso_max : Option Rat := none
  hfar : Option Rat := none
  hwall_n : Option Rat := none
  ratio : Option Rat := none
  thickness : Option Rat := none
  intersect_metrics : Bool := false
  is_quad_mesh : Bool := false
deriving DecidableEq, Repr

/-- The `CurveLoop` dataclass: arena indices of its `Line`s and of its
attached `Field`s (all fields are `BoundaryLayer`s). -/
structure CurveLoop where
  lines : List Nat
  fields : List Nat := []
deriving DecidableEq, Repr

/-- The `PlaneSurface` dataclass.  `corners = some ps` encodes that the
object is a `TransfinitePlaneSurface` with those corner `Point` indices;
`transfinite_corners` is declared in the source but never read. -/
structure PlaneSurface where
  outlines : List Nat
  holes : List Nat := []
  label : Option String := none
  is_quad_mesh : Bool := false
  transfinite_corners : Option (List Nat) := none
  corners : Option (List Nat) := none
deriving DecidableEq, Repr

/-- The arena of entity objects built by the caller before `generate`. -/
structure Arena where
  points : List Point := []
  lines : List Line := []
  loops : List CurveLoop := []
  fields : List BoundaryLayer := []
  surfaces : List PlaneSurface := []
deriving DecidableEq, Repr

def dfltPoint : Point := { coord := [], mesh_size := 0 }
def dfltLine : Line := { start := 0, endp := 0 }
def dfltLoop : CurveLoop := { lines := [] }
def dfltBoundaryLayer : BoundaryLayer := {}
def dfltSurface : PlaneSurface := { outlines := [] }

/-- The per-object mutable state installed by `MeshTransaction.__init__`:
`tag`, `before_sync_initiated`, `after_sync_initiated`. -/
structure EntState where
  tag : Option Nat := none
  before_sync_initiated : Bool := false
  after_sync_initiated : Bool := false
deriving DecidableEq, Repr

/-- `{ st with before_sync_initiated := true }`, what
`MeshTransaction.before_sync` does. -/
def EntState.markBefore (st : EntState) : EntState := { st with before_sync_initiated := true }

/-- `{ st with after_sync_initiated := true }`, what
`MeshTransaction.after_sync` does. -/
def EntState.markAfter (st : EntState) : EntState := { st with after_sync_initiated := true }

/-- `self.tag = t`. -/
def EntState.withTag (t : Nat) (st : EntState) : EntState := { st with tag := some t }

/-- Whole-program state: the kernel's tag counter and call trace plus the
mutable state of every entity object (indexed by its arena index).
`loopLineTags` is the `CurveLoop.line_tags` list, mutated in
`CurveLoop.before_sync`. -/
structure GState where
  nextTag : Nat
  trace : List Event
  pointSt : Nat → EntState
  lineSt : Nat → EntState
  loopSt : Nat → EntState
  surfaceSt : Nat → EntState
  fieldSt : Nat → EntState
  loopLineTags : Nat → List Nat

/-- The state before any kernel call: empty trace, fresh objects. -/
def initState : GState :=
  { nextTag := 1
    trace := []
    pointSt := fun _ => {}
    lineSt := fun _ => {}
    loopSt := fun _ => {}
    surfaceSt := fun _ => {}
    fieldSt := fun _ => {}
    loopLineTags := fun _ => [] }

/-- Append one kernel call to the trace. -/
def emit (e : Event) (s : GState) : GState := { s with trace := s.trace ++ [e] }

/-- Append several kernel calls to the trace. -/
def appendEvents (evs : List Event) (s : GState) : GState := { s with trace := s.trace ++ evs }

def updPoint (i : Nat) (f : EntState → EntState) (s : GState) : GState :=
  { s with pointSt := Function.update s.pointSt i (f (s.pointSt i)) }

def updLine (i : Nat) (f : EntState → EntState) (s : GState) : GState :=
  { s with lineSt := Function.update s.lineSt i (f (s.lineSt i)) }

def updLoop (i : Nat) (f : EntState → EntState) (s : GState) : GState :=
  { s with loopSt := Function.update s.loopSt i (f (s.loopSt i)) }

def updSurface (i : Nat) (f : EntState → EntState) (s : GState) : GState :=
  { s with surfaceSt := Function.update s.surfaceSt i (f (s.surfaceSt i)) }

def updField (i : Nat) (f : EntState → EntState) (s : GState) : GState :=
  { s with fieldSt := Function.update s.fieldSt i (f (s.fieldSt i)) }

/-- `self.line_tags.append(t)` on curve loop `i`. -/
def appendLoopLineTag (i : Nat) (t : Nat) (s : GState) : GState :=
  { s with loopLineTags := Function.update s.loopLineTags i (s.loopLineTags i ++ [t]) }

/-- `gmsh.model.geo.add_point`: allocates the next tag and records the call.
The allocated tag is `s.nextTag`. -/
def add_point (x y z mesh_size : Rat) (s : GState) : GState :=
  emit (.addPoint x y z mesh_size s.nextTag) { s with nextTag := s.nextTag + 1 }

/-- `gmsh.model.geo.add_line`. -/
def add_line (t1 t2 : Nat) (s : GState) : GState :=
  emit (.addLine t1 t2 s.nextTag) { s with nextTag := s.nextTag + 1 }

/-- `gmsh.model.geo.add_curve_loop`. -/
def add_curve_loop (lineTags : List Nat) (s : GState) : GState :=
  emit (.addCurveLoop lineTags s.nextTag) { s with nextTag := s.nextTag + 1 }

/-- `gmsh.model.geo.add_plane_surface`. -/
def add_plane_surface (loopTags : List Nat) (s : GState) : GState :=
  emit (.addPlaneSurface loopTags s.nextTag) { s with nextTag := s.nextTag + 1 }

/-- `gmsh.model.add_physical_group`. -/
def add_physical_group (dim : Nat) (tags : List Nat) (s : GState) : GState :=
  emit (.addPhysicalGroup dim tags s.nextTag) { s with nextTag := s.nextTag + 1 }

/-- `gmsh.model.mesh.field.add`. -/
def field_add (kind : String) (s : GState) : GState :=
  emit (.fieldAdd kind s.nextTag) { s with nextTag := s.nextTag + 1 }

/-- `Point.before_sync`: create the kernel point once, guarded by
`before_sync_initiated`; `super().before_sync()` then sets the flag. -/
def Point.before_sync (a : Arena) (i : Nat) (s : GState) : GState :=
  updPoint i EntState.markBefore
    (if (s.pointSt i).before_sync_initiated then s
     else
       let p := a.points.getD i dfltPoint
       updPoint i (EntState.withTag s.nextTag) (add_point p.x p.y p.z p.mesh_size s))

/-- `MeshTransaction.after_sync` as inherited by `Point`: only set the flag. -/
def Point.after_sync (i : Nat) (s : GState) : GState :=
  updPoint i EntState.markAfter s

/-- `Line.before_sync`: construct both endpoints first, then create the
kernel line from their tags; guarded by `before_sync_initiated`. -/
def Line.before_sync (a : Arena) (i : Nat) (s : GState) : GState :=
  updLine i EntState.markBefore
    (if (s.lineSt i).before_sync_initiated then s
     else
       let l := a.lines.getD i dfltLine
       let s1 := Point.before_sync a l.start s
       let s2 := Point.before_sync a l.endp s1
       updLine i (EntState.withTag s2.nextTag)
         (add_line ((s2.pointSt l.start).tag.getD 0) ((s2.pointSt l.endp).tag.getD 0) s2))

/-- `Line.after_sync` (dispatching on the dynamic type): a plain `Line`
inherits the flag-only `MeshTransaction.after_sync`; a `TransfiniteLine`
first issues `set_transfinite_curve(tag, cell_count+1, mesh_type, coeff)`,
guarded by `after_sync_initiated`. -/
def Line.after_sync (a : Arena) (i : Nat) (s : GState) : GState :=
  match (a.lines.getD i dfltLine).transfinite with
  | none => updLine i EntState.markAfter s
  | some td =>
      updLine i EntState.markAfter
        (if (s.lineSt i).after_sync_initiated then s
         else
           emit (.setTransfiniteCurve ((s.lineSt i).tag.getD 0) (td.cell_count + 1)
             td.mesh_type td.coeff) s)

/-- `Field.before_sync(curve_loop)`: no kernel work, just the flag
(`BoundaryLayer` does not override it). -/
def Field.before_sync (fi : Nat) (s : GState) : GState :=
  updField fi EntState.markBefore s

/-- Python truthiness of an optional float: `None` and `0.0` are falsy. -/
def pyTruthy (o : Option Rat) : Bool :=
  match o with
  | none => false
  | some v => decide (v ≠ 0)

/-- The conditional `setNumber` calls of `BoundaryLayer.after_sync` in source
order; each `if attr:` test is Python truthiness.  `int(True) = 1`, and a
`True` passed for `IntersectMetrics` is coerced to `1` by the kernel. -/
def blOptionalSettings (bl : BoundaryLayer) (t : Nat) : List Event :=
  (if pyTruthy bl.aniso_max then [.fieldSetNumber t "AnisoMax" (bl.aniso_max.getD 0)] else [])
  ++ (if bl.intersect_metrics then [.fieldSetNumber t "IntersectMetrics" 1] else [])
  ++ (if bl.is_quad_mesh then [.fieldSetNumber t "Quads" 1] else [])
  ++ (if pyTruthy bl.hfar then [.fieldSetNumber t "hfar" (bl.hfar.getD 0)] else [])
  ++ (if pyTruthy bl.hwall_n then [.fieldSetNumber t "hwall_n" (bl.hwall_n.getD 0)] else [])
  ++ (if pyTruthy bl.ratio then [.fieldSetNumber t "ratio" (bl.ratio.getD 0)] else [])
  ++ (if pyTruthy bl.thickness then [.fieldSetNumber t "thickness" (bl.thickness.getD 0)] else [])

/-- `BoundaryLayer.after_sync(curve_loop)`: create the field, point it at the
loop's collected `line_tags`, set the truthy optional attributes, and mark it
as the boundary-layer field; guarded by `after_sync_initiated`. -/
def BoundaryLayer.after_sync (a : Arena) (fi ci : Nat) (s : GState) : GState :=
  updField fi EntState.markAfter
    (if (s.fieldSt fi).after_sync_initiated then s
     else
       let bl := a.fields.getD fi dfltBoundaryLayer
       let t := s.nextTag
       let s1 := updField fi (EntState.withTag t) (field_add "BoundaryLayer" s)
       let s2 := emit (.fieldSetNumbers t "CurvesList" (s1.loopLineTags ci)) s1
       emit (.fieldSetAsBoundaryLayer t) (appendEvents (blOptionalSettings bl t) s2))

/-- `Field.after_sync(curve_loop)` dispatch: every field in the source is a
`BoundaryLayer`. -/
def Field.after_sync (a : Arena) (fi ci : Nat) (s : GState) : GState :=
  BoundaryLayer.after_sync a fi ci s

/-- One iteration of the line loop in `CurveLoop.before_sync`:
`line.before_sync(); self.line_tags.append(line.tag)`. -/
def loopLineStep (a : Arena) (ci : Nat) (s : GState) (li : Nat) : GState :=
  let s' := Line.before_sync a li s
  appendLoopLineTag ci ((s'.lineSt li).tag.getD 0) s'

/-- One iteration of the field loop in `CurveLoop.before_sync`. -/
def fieldsBeforeStep (s : GState) (fi : Nat) : GState := Field.before_sync fi s

/-- `CurveLoop.before_sync`: construct every line in declared order and
append its tag to `self.line_tags`, create the kernel loop from the
collected tags, then run `before_sync` on each attached field. -/
def CurveLoop.before_sync (a : Arena) (ci : Nat) (s : GState) : GState :=
  updLoop ci EntState.markBefore
    (if (s.loopSt ci).before_sync_initiated then s
     else
       let cl := a.loops.getD ci dfltLoop
       let s1 := cl.lines.foldl (loopLineStep a ci) s
       let s2 := updLoop ci (EntState.withTag s1.nextTag)
         (add_curve_loop (s1.loopLineTags ci) s1)
       cl.fields.foldl fieldsBeforeStep s2)

/-- Insertion-ordered update of the `line_group_tags` dict:
`line_group_tags.setdefault(label, []).append(tag)` semantics. -/
def insertGroup : List (String × List Nat) → String → Nat → List (String × List Nat)
  | [], lbl, t => [(lbl, [t])]
  | (k, ts) :: rest, lbl, t =>
      if k = lbl then (k, ts ++ [t]) :: rest else (k, ts) :: insertGroup rest lbl t

/-- One iteration of the line loop in `CurveLoop.after_sync`: collect the
line's tag under its label when the label is truthy, then refine the line. -/
def loopRefineStep (a : Arena) (acc : List (String × List Nat) × GState) (li : Nat) :
    List (String × List Nat) × GState :=
  let groups := match (a.lines.getD li dfltLine).label with
    | some lbl =>
        if lbl = "" then acc.1
        else insertGroup acc.1 lbl ((acc.2.lineSt li).tag.getD 0)
    | none => acc.1
  (groups, Line.after_sync a li acc.2)

/-- One iteration of the group loop in `CurveLoop.after_sync`: create the
physical curve group and name it. -/
def groupStep (s : GState) (g : String × List Nat) : GState :=
  emit (.setPhysicalName 1 s.nextTag g.1) (add_physical_group 1 g.2 s)

/-- One iteration of the field loop in `CurveLoop.after_sync`. -/
def fieldsAfterStep (a : Arena) (ci : Nat) (s : GState) (fi : Nat) : GState :=
  Field.after_sync a fi ci s

/-- `CurveLoop.after_sync`: walk the lines once, collecting truthy-labelled
line tags into `line_group_tags` and refining each line; then one physical
group (plus name) per label in insertion order; then refine the attached
fields.  Guarded by `after_sync_initiated`. -/
def CurveLoop.after_sync (a : Arena) (ci : Nat) (s : GState) : GState :=
  updLoop ci EntState.markAfter
    (if (s.loopSt ci).after_sync_initiated then s
     else
       let cl := a.loops.getD ci dfltLoop
       let acc := cl.lines.foldl (loopRefineStep a) ([], s)
       let s2 := acc.1.foldl groupStep acc.2
       cl.fields.foldl (fieldsAfterStep a ci) s2)

/-- One iteration of the loop loop in `PlaneSurface.before_sync`:
`curve_loop.before_sync(); curve_loop_tags.append(curve_loop.tag)`. -/
def surfaceLoopStep (a : Arena) (acc : GState × List Nat) (ci : Nat) : GState × List Nat :=
  let s' := CurveLoop.before_sync a ci acc.1
  (s', acc.2 ++ [(s'.loopSt ci).tag.getD 0])

/-- `PlaneSurface.before_sync`: construct every loop of
`self.curve_loops = self.outlines + self.holes` in order, collecting tags,
then create the kernel surface from them. -/
def PlaneSurface.before_sync (a : Arena) (si : Nat) (s : GState) : GState :=
  updSurface si EntState.markBefore
    (if (s.surfaceSt si).before_sync_initiated then s
     else
       let ps := a.surfaces.getD si dfltSurface
       let acc := (ps.outlines ++ ps.holes).foldl (surfaceLoopStep a) (s, [])
       updSurface si (EntState.withTag acc.1.nextTag) (add_plane_surface acc.2 acc.1))

/-- One iteration of the loop loop in `PlaneSurface.after_sync`. -/
def loopsAfterStep (a : Arena) (s : GState) (ci : Nat) : GState :=
  CurveLoop.after_sync a ci s

/-- `PlaneSurface.after_sync`: refine every constituent loop; if labelled,
create the surface physical group and name it (`label is not None`, not
truthiness); if `is_quad_mesh`, issue the recombine directive. -/
def PlaneSurface.after_sync (a : Arena) (si : Nat) (s : GState) : GState :=
  updSurface si EntState.markAfter
    (if (s.surfaceSt si).after_sync_initiated then s
     else
       let ps := a.surfaces.getD si dfltSurface
       let s1 := (ps.outlines ++ ps.holes).foldl (loopsAfterStep a) s
       let s2 := match ps.label with
         | some lbl =>
             emit (.setPhysicalName 2 s1.nextTag lbl)
               (add_physical_group 2 [(s1.surfaceSt si).tag.getD 0] s1)
         | none => s1
       if ps.is_quad_mesh then emit (.setRecombine 2 ((s2.surfaceSt si).tag.getD 0)) s2 else s2)

/-- `TransfinitePlaneSurface.after_sync`: issue `set_transfinite_surface`
with the declared corner point tags (guarded by `after_sync_initiated`),
then `super().after_sync()`, i.e. the full base refinement. -/
def TransfinitePlaneSurface.after_sync (a : Arena) (si : Nat) (s : GState) : GState :=
  PlaneSurface.after_sync a si
    (if (s.surfaceSt si).after_sync_initiated then s
     else
       let ps := a.surfaces.getD si dfltSurface
       emit (.setTransfiniteSurface ((s.surfaceSt si).tag.getD 0)
         ((ps.corners.getD []).map (fun pi => (s.pointSt pi).tag.getD 0))) s)

/-- Dynamic dispatch on a surface's runtime class: `corners = some _` means
the object is a `TransfinitePlaneSurface`. -/
def surface_after_sync_dispatch (a : Arena) (si : Nat) (s : GState) : GState :=
  match (a.surfaces.getD si dfltSurface).corners with
  | some _ => TransfinitePlaneSurface.after_sync a si s
  | none => PlaneSurface.after_sync a si s

/-- A root handed to `Geometry.generate`: a reference to one of the concrete
`MeshTransaction` subtypes (a bare `Field` cannot be a root: its
`before_sync` requires a loop argument). -/
inductive MeshTransaction where
  | point (i : Nat)
  | line (i : Nat)
  | curveLoop (i : Nat)
  | planeSurface (i : Nat)
deriving DecidableEq, Repr

/-- Dynamic dispatch of `before_sync` over the entity hierarchy
(`TransfiniteLine` and `TransfinitePlaneSurface` do not override it). -/
def MeshTransaction.before_sync (a : Arena) : MeshTransaction → GState → GState
  | .point i => Point.before_sync a i
  | .line i => Line.before_sync a i
  | .curveLoop i => CurveLoop.before_sync a i
  | .planeSurface i => PlaneSurface.before_sync a i

/-- Dynamic dispatch of `after_sync` over the entity hierarchy. -/
def MeshTransaction.after_sync (a : Arena) : MeshTransaction → GState → GState
  | .point i => Point.after_sync i
  | .line i => Line.after_sync a i
  | .curveLoop i => CurveLoop.after_sync a i
  | .planeSurface i => surface_after_sync_dispatch a i

/-- The entity's `before_sync_initiated` flag. -/
def MeshTransaction.constructed (t : MeshTransaction) (s : GState) : Bool :=
  match t with
  | .point i => (s.pointSt i).before_sync_initiated
  | .line i => (s.lineSt i).before_sync_initiated
  | .curveLoop i => (s.loopSt i).before_sync_initiated
  | .planeSurface i => (s.surfaceSt i).before_sync_initiated

/-- The entity's `after_sync_initiated` flag. -/
def MeshTransaction.refined (t : MeshTransaction) (s : GState) : Bool :=
  match t with
  | .point i => (s.pointSt i).after_sync_initiated
  | .line i => (s.lineSt i).after_sync_initiated
  | .curveLoop i => (s.loopSt i).after_sync_initiated
  | .planeSurface i => (s.surfaceSt i).after_sync_initiated

/-- The entity's `tag`. -/
def MeshTransaction.tagOf (t : MeshTransaction) (s : GState) : Option Nat :=
  match t with
  | .point i => (s.pointSt i).tag
  | .line i => (s.lineSt i).tag
  | .curveLoop i => (s.loopSt i).tag
  | .planeSurface i => (s.surfaceSt i).tag

/-- Phase 1 of `Geometry.generate`: `before_sync` over the single root or the
root list in declared order. -/
def Geometry.constructAll (a : Arena) :
    Sum MeshTransaction (List MeshTransaction) → GState → GState
  | .inl t, s => MeshTransaction.before_sync a t s
  | .inr ts, s => ts.foldl (fun s t => MeshTransaction.before_sync a t s) s

/-- Phase 2 of `Geometry.generate`: `after_sync` over the same roots in the
same order. -/
def Geometry.refineAll (a : Arena) :
    Sum MeshTransaction (List MeshTransaction) → GState → GState
  | .inl t, s => MeshTransaction.after_sync a t s
  | .inr ts, s => ts.foldl (fun s t => MeshTransaction.after_sync a t s) s

/-- `Geometry.generate`: phase 1, one `synchronize`, phase 2,
`mesh.generate()`, then `Mesh.SaveAll = 1` (the final `import_from_gmsh` is
the external import collaborator and returns the result). -/
def Geometry.generate (a : Arena) (transactions : Sum MeshTransaction (List MeshTransaction))
    (s : GState) : GState :=
  emit (.setNumberOption "Mesh.SaveAll" 1)
    (emit .generateMesh
      (Geometry.refineAll a transactions
        (emit .synchronize
          (Geometry.constructAll a transactions s))))

/-- `Geometry.__enter__`: unconditionally `gmsh.initialize()`. -/
def Geometry.enter (s : GState) : GState := emit .initGmsh s

/-- `Geometry.__exit__`: unconditionally `gmsh.finalize()`. -/
def Geometry.exitSession (s : GState) : GState := emit .finalizeGmsh s

/-- `Geometry.write`: unconditionally `gmsh.write(filename)`. -/
def Geometry.write (filename : String) (s : GState) : GState :=
  emit (.gmshWrite filename) s

/-! ### `get_points_and_lines`

The helper builds `Point` and `Line` objects only (no kernel calls).  To keep
Python's reference semantics, the returned lines refer to points by their
index in the returned `points` list — exactly the object the source picks
with `points[i-1]`, `points[0]` or the freshly appended `point`.  Python
`IndexError`s (short argument lists, zero-row input) make the embedding
return `none`. -/

/-- A `Union[T, List[T]]` argument; `isinstance(x, List)` is matching on
`.list`. -/
inductive NumOrList (α : Type) where
  | scalar (x : α)
  | list (xs : List α)
deriving DecidableEq, Repr

/-- Python truthiness of a `Union[T, List[T]]` value, given the falsy scalar
of `T` (`0`, `0.0` or `""`); an empty list is falsy. -/
def NumOrList.truthy {α : Type} [DecidableEq α] (zero : α) : NumOrList α → Bool
  | .scalar x => decide (x ≠ zero)
  | .list xs => decide (xs ≠ [])

/-- Python truthiness of an `Optional[Union[T, List[T]]]` argument. -/
def optTruthy {α : Type} [DecidableEq α] (zero : α) : Option (NumOrList α) → Bool
  | none => false
  | some v => v.truthy zero

/-- `x if isinstance(v, str) else v[idx]`: scalar pass-through, list
indexing (which can raise). -/
def resolveAt {α : Type} (v : NumOrList α) (idx : Nat) : Option α :=
  match v with
  | .scalar x => some x
  | .list xs => xs.get? idx

/-- `label = (labels if isinstance(labels, str) else labels[line_index]) if
labels else None`. -/
def gplLabel (labels : Option (NumOrList String)) (line_index : Nat) :
    Option (Option String) :=
  match labels with
  | some v => if v.truthy "" then (resolveAt v line_index).map some else some none
  | none => some none

/-- The per-line option block of `get_points_and_lines`: the label, and —
when `cell_counts` is truthy — the `TransfiniteLine` payload with the
`"Progression"` / `1.0` fallbacks for falsy `mesh_types` / `mesh_coeffs`. -/
def gplLineOpts (labels : Option (NumOrList String)) (cell_counts : Option (NumOrList Int))
    (mesh_types : Option (NumOrList String)) (mesh_coeffs : Option (NumOrList Rat))
    (line_index : Nat) : Option (Option String × Option TransfiniteData) := do
  let label ← gplLabel labels line_index
  match cell_counts with
  | some ccv =>
      if ccv.truthy 0 then do
        let cc ← resolveAt ccv line_index
        let mt ← match mesh_types with
          | some mtv => if mtv.truthy "" then resolveAt mtv line_index else some "Progression"
          | none => some "Progression"
        let mc ← match mesh_coeffs with
          | some mcv => if mcv.truthy 0 then resolveAt mcv line_index else some (1 : Rat)
          | none => some (1 : Rat)
        pure (label, some { cell_count := cc, mesh_type := mt, coeff := mc })
      else pure (label, none)
  | none => pure (label, none)

/-- Loop state of `get_points_and_lines`: the (re-bound) `mesh_size`
variable, the accumulated `points` and `lines`, and `line_index`. -/
structure GplSt where
  ms : NumOrList Rat
  points : List Point
  lines : List Line
  line_index : Nat
deriving DecidableEq, Repr

/-- One iteration of the `for i in range(len(coords) + 1)` loop:
re-bind `mesh_size` (indexing once while it is still a list), append the new
point — or reuse `points[0]` on the closing iteration — and, for `i > 0`,
append the connecting line from `points[i-1]`. -/
def gplStep (coords : List (List Rat)) (labels : Option (NumOrList String))
    (cell_counts : Option (NumOrList Int)) (mesh_types : Option (NumOrList String))
    (mesh_coeffs : Option (NumOrList Rat)) (i : Nat) (st : GplSt) : Option GplSt := do
  let ms ← match st.ms with
    | .list l => (l.get? i).map NumOrList.scalar
    | .scalar x => some (NumOrList.scalar x)
  let msv := match ms with
    | .scalar x => x
    | .list _ => 0
  let (pidx, points) ←
    if i = coords.length then
      match st.points with
      | [] => none
      | _ :: _ => some ((0 : Nat), st.points)
    else do
      let coord ← coords.get? i
      some (st.points.length, st.points ++ [{ coord := coord, mesh_size := msv : Point }])
  if i = 0 then
    some { ms := ms, points := points, lines := st.lines, line_index := st.line_index }
  else do
    let opts ← gplLineOpts labels cell_counts mesh_types mesh_coeffs st.line_index
    if i - 1 < points.length then
      some { ms := ms, points := points,
             lines := st.lines ++ [{ start := i - 1, endp := pidx,
                                     label := opts.1, transfinite := opts.2 }],
             line_index := st.line_index + 1 }
    else none

/-- Run the loop over the remaining indices. -/
def gplFold (coords : List (List Rat)) (labels : Option (NumOrList String))
    (cell_counts : Option (NumOrList Int)) (mesh_types : Option (NumOrList String))
    (mesh_coeffs : Option (NumOrList Rat)) : List Nat → GplSt → Option GplSt
  | [], st => some st
  | i :: rest, st =>
      (gplStep coords labels cell_counts mesh_types mesh_coeffs i st).bind
        (gplFold coords labels cell_counts mesh_types mesh_coeffs rest)

/-- `get_points_and_lines(coords, mesh_size, labels, cell_counts,
mesh_types, mesh_coeffs)`. -/
def get_points_and_lines (coords : List (List Rat)) (mesh_size : NumOrList Rat)
    (labels : Option (NumOrList String) := none)
    (cell_counts : Option (NumOrList Int) := none)
    (mesh_types : Option (NumOrList String) := none)
    (mesh_coeffs : Option (NumOrList Rat) := none) :
    Option (List Point × List Line) :=
  (gplFold coords labels cell_counts mesh_types mesh_coeffs
      (List.range (coords.length + 1))
      { ms := mesh_size, points := [], lines := [], line_index := 0 }).map
    (fun st => (st.points, st.lines))

/-! ### Event classification and counting -/

/-- Kernel entity-creation calls (the phase-1 calls). -/
def Event.isConstruction : Event → Bool
  | .addPoint .. => true
  | .addLine .. => true
  | .addCurveLoop .. => true
  | .addPlaneSurface .. => true
  | _ => false

/-- Kernel refinement/labelling calls (the phase-2 calls). -/
def Event.isRefinement : Event → Bool
  | .setTransfiniteCurve .. => true
  | .setTransfiniteSurface .. => true
  | .setRecombine .. => true
  | .addPhysicalGroup .. => true
  | .setPhysicalName .. => true
  | .fieldAdd .. => true
  | .fieldSetNumbers .. => true
  | .fieldSetNumber .. => true
  | .fieldSetAsBoundaryLayer .. => true
  | _ => false

def Event.isAddPoint : Event → Bool
  | .addPoint .. => true
  | _ => false

def Event.isAddLine : Event → Bool
  | .addLine .. => true
  | _ => false

def Event.isAddCurveLoop : Event → Bool
  | .addCurveLoop .. => true
  | _ => false

def Event.isAddPlaneSurface : Event → Bool
  | .addPlaneSurface .. => true
  | _ => false

def Event.isAddPhysicalGroup : Event → Bool
  | .addPhysicalGroup .. => true
  | _ => false

def Event.isSynchronize : Event → Bool
  | .synchronize => true
  | _ => false

def Event.isSetTransfiniteSurface : Event → Bool
  | .setTransfiniteSurface .. => true
  | _ => false

def Event.isSetTransfiniteCurve : Event → Bool
  | .setTransfiniteCurve .. => true
  | _ => false

/-- Kernel mesh-field calls (everything a `BoundaryLayer` refinement emits). -/
def Event.isFieldEvent : Event → Bool
  | .fieldAdd .. => true
  | .fieldSetNumbers .. => true
  | .fieldSetNumber .. => true
  | .fieldSetAsBoundaryLayer .. => true
  | _ => false

def Event.isFieldSetNumberKey (key : String) : Event → Bool
  | .fieldSetNumber _ k _ => k = key
  | _ => false

/-- A unit square loop whose four lines carry the labels
`"A"`, `"A"`, `"B"`, `None` — the label-aggregation scenario. -/
def arenaSquare : Arena :=
  { points := [{ coord := [0, 0], mesh_size := 1 }, { coord := [1, 0], mesh_size := 1 },
               { coord := [1, 1], mesh_size := 1 }, { coord := [0, 1], mesh_size := 1 }]
    lines := [{ start := 0, endp := 1, label := some "A" },
              { start := 1, endp := 2, label := some "A" },
              { start := 2, endp := 3, label := some "B" },
              { start := 3, endp := 0 }]
    loops := [{ lines := [0, 1, 2, 3] }] }

/-- A single `TransfiniteLine` with `cell_count = 4`. -/
def arenaTL : Arena :=
  { points := [{ coord := [0, 0], mesh_size := 1 }, { coord := [1, 0], mesh_size := 1 }]
    lines := [{ start := 0, endp := 1,
                transfinite := some { cell_count := 4, mesh_type := "Progression",
                                      coeff := 1 } }] }

/-- A `BoundaryLayer` whose `aniso_max` was explicitly provided as `0.0`. -/
def arenaBL : Arena :=
  { fields := [{ aniso_max := some 0 }]
    loops := [{ lines := [], fields := [0] }] }

/-- The unit square bounded by a labelled, quad-recombined
`TransfinitePlaneSurface` with the four corners declared. -/
def arenaTS : Arena :=
  { points := [{ coord := [0, 0], mesh_size := 1 }, { coord := [1, 0], mesh_size := 1 },
               { coord := [1, 1], mesh_size := 1 }, { coord := [0, 1], mesh_size := 1 }]
    lines := [{ start := 0, endp := 1 }, { start := 1, endp := 2 },
              { start := 2, endp := 3 }, { start := 3, endp := 0 }]
    loops := [{ lines := [0, 1, 2, 3] }]
    surfaces := [{ outlines := [0], label := some "domain", is_quad_mesh := true,
                   corners := some [0, 1, 2, 3] }] }

/-- Number of events satisfying `p`. -/
def countP (p : Event → Bool) (l : List Event) : Nat := (l.filter p).length

/-- `s'` extends `s`'s trace by events satisfying `P` only. -/
def TraceExt (P : Event → Bool) (s s' : GState) : Prop :=
  ∃ d, s'.trace = s.trace ++ d ∧ ∀ e ∈ d, P e = true

/-- The creation event of the entity's own kernel primitive. -/
def MeshTransaction.ownCreation : MeshTransaction → Event → Bool
  | .point _ => Event.isAddPoint
  | .line _ => Event.isAddLine
  | .curveLoop _ => Event.isAddCurveLoop
  | .planeSurface _ => Event.isAddPlaneSurface

/-- `s'` has every lifecycle flag that `s` has: flags are only ever raised. -/
structure FlagLe (s s' : GState) : Prop where
  pb : ∀ i, (s.pointSt i).before_sync_initiated = true →
    (s'.pointSt i).before_sync_initiated = true
  pa : ∀ i, (s.pointSt i).after_sync_initiated = true →
    (s'.pointSt i).after_sync_initiated = true
  lb : ∀ i, (s.lineSt i).before_sync_initiated = true →
    (s'.lineSt i).before_sync_initiated = true
  la : ∀ i, (s.lineSt i).after_sync_initiated = true →
    (s'.lineSt i).after_sync_initiated = true
  cb : ∀ i, (s.loopSt i).before_sync_initiated = true →
    (s'.loopSt i).before_sync_initiated = true
  ca : ∀ i, (s.loopSt i).after_sync_initiated = true →
    (s'.loopSt i).after_sync_initiated = true
  sb : ∀ i, (s.surfaceSt i).before_sync_initiated = true →
    (s'.surfaceSt i).before_sync_initiated = true
  sa : ∀ i, (s.surfaceSt i).after_sync_initiated = true →
    (s'.surfaceSt i).after_sync_initiated = true
  fb : ∀ i, (s.fieldSt i).before_sync_initiated = true →
    (s'.fieldSt i).before_sync_initiated = true
  fa : ∀ i, (s.fieldSt i).after_sync_initiated = true →
    (s'.fieldSt i).after_sync_initiated = true

/-- The list of roots handed to `Geometry.generate`. -/
def rootsOf : Sum MeshTransaction (List MeshTransaction) → List MeshTransaction
  | .inl t => [t]
  | .inr ts => ts

/-- The set of `Point` instances a `Line` structurally depends on. -/
def Line.pointIds (a : Arena) (li : Nat) : Finset Nat :=
  {(a.lines.getD li dfltLine).start, (a.lines.getD li dfltLine).endp}

/-- The set of `Point` instances a `CurveLoop` structurally depends on. -/
def CurveLoop.pointIds (a : Arena) (ci : Nat) : Finset Nat :=
  (a.loops.getD ci dfltLoop).lines.foldr (fun li acc => Line.pointIds a li ∪ acc) ∅

/-- The set of `Point` instances a `PlaneSurface` structurally depends on
through its loops (transfinite corners are not constructed by phase 1). -/
def PlaneSurface.pointIds (a : Arena) (si : Nat) : Finset Nat :=
  ((a.surfaces.getD si dfltSurface).outlines ++ (a.surfaces.getD si dfltSurface).holes).foldr
    (fun ci acc => CurveLoop.pointIds a ci ∪ acc) ∅

/-- The set of `Point` instances an entity structurally depends on. -/
def MeshTransaction.pointIds (a : Arena) : MeshTransaction → Finset Nat
  | .point i => {i}
  | .line i => Line.pointIds a i
  | .curveLoop i => CurveLoop.pointIds a i
  | .planeSurface i => PlaneSurface.pointIds a i

/-- All distinct `Point` instances in the entity graph spanned by the roots. -/
def rootsPointIds (a : Arena) (ts : Sum MeshTransaction (List MeshTransaction)) : Finset Nat :=
  (rootsOf ts).foldr (fun t acc => MeshTransaction.pointIds a t ∪ acc) ∅

/-- Construction flags are downward closed along structural dependencies: a
constructed line has constructed endpoints, a constructed loop has
constructed lines, a constructed surface has constructed loops.  This holds
in the fresh state and is preserved by every operation. -/
def FlagsClosed (a : Arena) (s : GState) : Prop :=
  (∀ li : Nat, (s.lineSt li).before_sync_initiated = true →
    ∀ j ∈ Line.pointIds a li, (s.pointSt j).before_sync_initiated = true) ∧
  (∀ ci : Nat, (s.loopSt ci).before_sync_initiated = true →
    ∀ li ∈ (a.loops.getD ci dfltLoop).lines,
      (s.lineSt li).before_sync_initiated = true) ∧
  (∀ si : Nat, (s.surfaceSt si).before_sync_initiated = true →
    ∀ ci ∈ (a.surfaces.getD si dfltSurface).outlines
        ++ (a.surfaces.getD si dfltSurface).holes,
      (s.loopSt ci).before_sync_initiated = true)

/-- `f` constructs exactly the points `pts` (in any closed state): it raises
precisely their construction flags, issues one kernel point creation per
not-yet-constructed member, and preserves closure. -/
def ConstructsPoints (a : Arena) (pts : Finset Nat) (f : GState → GState) : Prop :=
  ∀ s : GState, FlagsClosed a s →
    (∀ j, ((f s).pointSt j).before_sync_initiated
        = ((s.pointSt j).before_sync_initiated || decide (j ∈ pts))) ∧
    countP Event.isAddPoint (f s).trace
      = countP Event.isAddPoint s.trace
        + (pts.filter (fun j => ¬(s.pointSt j).before_sync_initiated = true)).card ∧
    FlagsClosed a (f s)

/-- Loop invariant of `get_points_and_lines` after the iterations
`0, ..., i-1` have run (so `1 ≤ i`): `mesh_size` has been re-bound to the
scalar `w`, `i` points have been emitted — every one with mesh size `w` —
and the `i - 1` lines produced so far join consecutive points. -/
def GplInv (w : Rat) (i : Nat) (st : GplSt) : Prop :=
  st.ms = NumOrList.scalar w ∧
  st.points.length = i ∧
  st.lines.length = i - 1 ∧
  st.line_index = i - 1 ∧
  (∀ j, j + 1 < i → (st.lines.getD j dfltLine).start = j ∧
      (st.lines.getD j dfltLine).endp = j + 1) ∧
  (∀ p ∈ st.points, p.mesh_size = w)

/-- The scalar that the loop variable `mesh_size` holds after the first
iteration: element `0` when a list was passed, the scalar itself otherwise. -/
def NumOrList.headScalar : NumOrList Rat → Rat
  | .scalar x => x
  | .list l => l.getD 0 0

theorem countP_append (p : Event → Bool) (l1 l2 : List Event) :
    countP p (l1 ++ l2) = countP p l1 + countP p l2 := by
  simp [countP, List.filter_append]

theorem countP_nil (p : Event → Bool) : countP p [] = 0 := rfl

/-- The kind of primitive a creation event creates, if any. -/
theorem isConstruction_of_isAddPoint {e : Event} (h : e.isAddPoint = true) :
    e.isConstruction = true := by
  cases e <;> simp_all [Event.isAddPoint, Event.isConstruction]

theorem not_isRefinement_of_isConstruction {e : Event} (h : e.isConstruction = true) :
    e.isRefinement = false := by
  cases e <;> simp_all [Event.isRefinement, Event.isConstruction]

theorem not_isSynchronize_of_isConstruction {e : Event} (h : e.isConstruction = true) :
    e.isSynchronize = false := by
  cases e <;> simp_all [Event.isSynchronize, Event.isConstruction]

theorem not_isSynchronize_of_isRefinement {e : Event} (h : e.isRefinement = true) :
    e.isSynchronize = false := by
  cases e <;> simp_all [Event.isSynchronize, Event.isRefinement]

theorem not_isAddPoint_of_isRefinement {e : Event} (h : e.isRefinement = true) :
    e.isAddPoint = false := by
  cases e <;> simp_all [Event.isAddPoint, Event.isRefinement]

/-! ### Basic state lemmas -/

theorem EntState.markBefore_eq_self {st : EntState} (h : st.before_sync_initiated = true) :
    st.markBefore = st := by
  cases st; simp_all [EntState.markBefore]

theorem EntState.markAfter_eq_self {st : EntState} (h : st.after_sync_initiated = true) :
    st.markAfter = st := by
  cases st; simp_all [EntState.markAfter]

theorem updPoint_eq_self {i : Nat} {f : EntState → EntState} {s : GState}
    (h : f (s.pointSt i) = s.pointSt i) : updPoint i f s = s := by
  simp [updPoint, h, Function.update_eq_self]

theorem updLine_eq_self {i : Nat} {f : EntState → EntState} {s : GState}
    (h : f (s.lineSt i) = s.lineSt i) : updLine i f s = s := by
  simp [updLine, h, Function.update_eq_self]

theorem updLoop_eq_self {i : Nat} {f : EntState → EntState} {s : GState}
    (h : f (s.loopSt i) = s.loopSt i) : updLoop i f s = s := by
  simp [updLoop, h, Function.update_eq_self]

theorem updSurface_eq_self {i : Nat} {f : EntState → EntState} {s : GState}
    (h : f (s.surfaceSt i) = s.surfaceSt i) : updSurface i f s = s := by
  simp [updSurface, h, Function.update_eq_self]

theorem updField_eq_self {i : Nat} {f : EntState → EntState} {s : GState}
    (h : f (s.fieldSt i) = s.fieldSt i) : updField i f s = s := by
  simp [updField, h, Function.update_eq_self]

section ProjectionLemmas

variable {i j t : Nat} {f : EntState → EntState} {s : GState} {e : Event} {evs : List Event}
variable {x y z ms v : Rat} {t1 t2 : Nat} {tags : List Nat} {dim : Nat} {kind : String}

@[simp] theorem updPoint_trace : (updPoint i f s).trace = s.trace := rfl
@[simp] theorem updPoint_nextTag : (updPoint i f s).nextTag = s.nextTag := rfl
@[simp] theorem updPoint_lineSt : (updPoint i f s).lineSt = s.lineSt := rfl
@[simp] theorem updPoint_loopSt : (updPoint i f s).loopSt = s.loopSt := rfl
@[simp] theorem updPoint_surfaceSt : (updPoint i f s).surfaceSt = s.surfaceSt := rfl
@[simp] theorem updPoint_fieldSt : (updPoint i f s).fieldSt = s.fieldSt := rfl
@[simp] theorem updPoint_loopLineTags : (updPoint i f s).loopLineTags = s.loopLineTags := rfl
@[simp] theorem updPoint_pointSt_self : (updPoint i f s).pointSt i = f (s.pointSt i) := by
  simp [updPoint]
theorem updPoint_pointSt_apply :
    (updPoint i f s).pointSt j = if j = i then f (s.pointSt i) else s.pointSt j := by
  simp [updPoint, Function.update_apply]

@[simp] theorem updLine_trace : (updLine i f s).trace = s.trace := rfl
@[simp] theorem updLine_nextTag : (updLine i f s).nextTag = s.nextTag := rfl
@[simp] theorem updLine_pointSt : (updLine i f s).pointSt = s.pointSt := rfl
@[simp] theorem updLine_loopSt : (updLine i f s).loopSt = s.loopSt := rfl
@[simp] theorem updLine_surfaceSt : (updLine i f s).surfaceSt = s.surfaceSt := rfl
@[simp] theorem updLine_fieldSt : (updLine i f s).fieldSt = s.fieldSt := rfl
@[simp] theorem updLine_loopLineTags : (updLine i f s).loopLineTags = s.loopLineTags := rfl
@[simp] theorem updLine_lineSt_self : (updLine i f s).lineSt i = f (s.lineSt i) := by
  simp [updLine]
theorem updLine_lineSt_apply :
    (updLine i f s).lineSt j = if j = i then f (s.lineSt i) else s.lineSt j := by
  simp [updLine, Function.update_apply]

@[simp] theorem updLoop_trace : (updLoop i f s).trace = s.trace := rfl
@[simp] theorem updLoop_nextTag : (updLoop i f s).nextTag = s.nextTag := rfl
@[simp] theorem updLoop_pointSt : (updLoop i f s).pointSt = s.pointSt := rfl
@[simp] theorem updLoop_lineSt : (updLoop i f s).lineSt = s.lineSt := rfl
@[simp] theorem updLoop_surfaceSt : (updLoop i f s).surfaceSt = s.surfaceSt := rfl
@[simp] theorem updLoop_fieldSt : (updLoop i f s).fieldSt = s.fieldSt := rfl
@[simp] theorem updLoop_loopLineTags : (updLoop i f s).loopLineTags = s.loopLineTags := rfl
@[simp] theorem updLoop_loopSt_self : (updLoop i f s).loopSt i = f (s.loopSt i) := by
  simp [updLoop]
theorem updLoop_loopSt_apply :
    (updLoop i f s).loopSt j = if j = i then f (s.loopSt i) else s.loopSt j := by
  simp [updLoop, Function.update_apply]

@[simp] theorem updSurface_trace : (updSurface i f s).trace = s.trace := rfl
@[simp] theorem updSurface_nextTag : (updSurface i f s).nextTag = s.nextTag := rfl
@[simp] theorem updSurface_pointSt : (updSurface i f s).pointSt = s.pointSt := rfl
@[simp] theorem updSurface_lineSt : (updSurface i f s).lineSt = s.lineSt := rfl
@[simp] theorem updSurface_loopSt : (updSurface i f s).loopSt = s.loopSt := rfl
@[simp] theorem updSurface_fieldSt : (updSurface i f s).fieldSt = s.fieldSt := rfl
@[simp] theorem updSurface_loopLineTags : (updSurface i f s).loopLineTags = s.loopLineTags := rfl
@[simp] theorem updSurface_surfaceSt_self : (updSurface i f s).surfaceSt i = f (s.surfaceSt i) := by
  simp [updSurface]
theorem updSurface_surfaceSt_apply :
    (updSurface i f s).surfaceSt j = if j = i then f (s.surfaceSt i) else s.surfaceSt j := by
  simp [updSurface, Function.update_apply]

@[simp] theorem updField_trace : (updField i f s).trace = s.trace := rfl
@[simp] theorem updField_nextTag : (updField i f s).nextTag = s.nextTag := rfl
@[simp] theorem updField_pointSt : (updField i f s).pointSt = s.pointSt := rfl
@[simp] theorem updField_lineSt : (updField i f s).lineSt = s.lineSt := rfl
@[simp] theorem updField_loopSt : (updField i f s).loopSt = s.loopSt := rfl
@[simp] theorem updField_surfaceSt : (updField i f s).surfaceSt = s.surfaceSt := rfl
@[simp] theorem updField_loopLineTags : (updField i f s).loopLineTags = s.loopLineTags := rfl
@[simp] theorem updField_fieldSt_self : (updField i f s).fieldSt i = f (s.fieldSt i) := by
  simp [updField]
theorem updField_fieldSt_apply :
    (updField i f s).fieldSt j = if j = i then f (s.fieldSt i) else s.fieldSt j := by
  simp [updField, Function.update_apply]

@[simp] theorem appendLoopLineTag_trace : (appendLoopLineTag i t s).trace = s.trace := rfl
@[simp] theorem appendLoopLineTag_nextTag : (appendLoopLineTag i t s).nextTag = s.nextTag := rfl
@[simp] theorem appendLoopLineTag_pointSt : (appendLoopLineTag i t s).pointSt = s.pointSt := rfl
@[simp] theorem appendLoopLineTag_lineSt : (appendLoopLineTag i t s).lineSt = s.lineSt := rfl
@[simp] theorem appendLoopLineTag_loopSt : (appendLoopLineTag i t s).loopSt = s.loopSt := rfl
@[simp] theorem appendLoopLineTag_surfaceSt :
    (appendLoopLineTag i t s).surfaceSt = s.surfaceSt := rfl
@[simp] theorem appendLoopLineTag_fieldSt : (appendLoopLineTag i t s).fieldSt = s.fieldSt := rfl
@[simp] theorem appendLoopLineTag_self :
    (appendLoopLineTag i t s).loopLineTags i = s.loopLineTags i ++ [t] := by
  simp [appendLoopLineTag]

@[simp] theorem emit_trace : (emit e s).trace = s.trace ++ [e] := rfl
@[simp] theorem emit_nextTag : (emit e s).nextTag = s.nextTag := rfl
@[simp] theorem emit_pointSt : (emit e s).pointSt = s.pointSt := rfl
@[simp] theorem emit_lineSt : (emit e s).lineSt = s.lineSt := rfl
@[simp] theorem emit_loopSt : (emit e s).loopSt = s.loopSt := rfl
@[simp] theorem emit_surfaceSt : (emit e s).surfaceSt = s.surfaceSt := rfl
@[simp] theorem emit_fieldSt : (emit e s).fieldSt = s.fieldSt := rfl
@[simp] theorem emit_loopLineTags : (emit e s).loopLineTags = s.loopLineTags := rfl

@[simp] theorem appendEvents_trace : (appendEvents evs s).trace = s.trace ++ evs := rfl
@[simp] theorem appendEvents_nextTag : (appendEvents evs s).nextTag = s.nextTag := rfl
@[simp] theorem appendEvents_pointSt : (appendEvents evs s).pointSt = s.pointSt := rfl
@[simp] theorem appendEvents_lineSt : (appendEvents evs s).lineSt = s.lineSt := rfl
@[simp] theorem appendEvents_loopSt : (appendEvents evs s).loopSt = s.loopSt := rfl
@[simp] theorem appendEvents_surfaceSt : (appendEvents evs s).surfaceSt = s.surfaceSt := rfl
@[simp] theorem appendEvents_fieldSt : (appendEvents evs s).fieldSt = s.fieldSt := rfl
@[simp] theorem appendEvents_loopLineTags :
    (appendEvents evs s).loopLineTags = s.loopLineTags := rfl

@[simp] theorem add_point_trace :
    (add_point x y z ms s).trace = s.trace ++ [.addPoint x y z ms s.nextTag] := rfl
@[simp] theorem add_point_nextTag : (add_point x y z ms s).nextTag = s.nextTag + 1 := rfl
@[simp] theorem add_point_pointSt : (add_point x y z ms s).pointSt = s.pointSt := rfl
@[simp] theorem add_point_lineSt : (add_point x y z ms s).lineSt = s.lineSt := rfl
@[simp] theorem add_point_loopSt : (add_point x y z ms s).loopSt = s.loopSt := rfl
@[simp] theorem add_point_surfaceSt : (add_point x y z ms s).surfaceSt = s.surfaceSt := rfl
@[simp] theorem add_point_fieldSt : (add_point x y z ms s).fieldSt = s.fieldSt := rfl
@[simp] theorem add_point_loopLineTags :
    (add_point x y z ms s).loopLineTags = s.loopLineTags := rfl

@[simp] theorem add_line_trace :
    (add_line t1 t2 s).trace = s.trace ++ [.addLine t1 t2 s.nextTag] := rfl
@[simp] theorem add_line_nextTag : (add_line t1 t2 s).nextTag = s.nextTag + 1 := rfl
@[simp] theorem add_line_pointSt : (add_line t1 t2 s).pointSt = s.pointSt := rfl
@[simp] theorem add_line_lineSt : (add_line t1 t2 s).lineSt = s.lineSt := rfl
@[simp] theorem add_line_loopSt : (add_line t1 t2 s).loopSt = s.loopSt := rfl
@[simp] theorem add_line_surfaceSt : (add_line t1 t2 s).surfaceSt = s.surfaceSt := rfl
@[simp] theorem add_line_fieldSt : (add_line t1 t2 s).fieldSt = s.fieldSt := rfl
@[simp] theorem add_line_loopLineTags : (add_line t1 t2 s).loopLineTags = s.loopLineTags := rfl

@[simp] theorem add_curve_loop_trace :
    (add_curve_loop tags s).trace = s.trace ++ [.addCurveLoop tags s.nextTag] := rfl
@[simp] theorem add_curve_loop_nextTag : (add_curve_loop tags s).nextTag = s.nextTag + 1 := rfl
@[simp] theorem add_curve_loop_pointSt : (add_curve_loop tags s).pointSt = s.pointSt := rfl
@[simp] theorem add_curve_loop_lineSt : (add_curve_loop tags s).lineSt = s.lineSt := rfl
@[simp] theorem add_curve_loop_loopSt : (add_curve_loop tags s).loopSt = s.loopSt := rfl
@[simp] theorem add_curve_loop_surfaceSt :
    (add_curve_loop tags s).surfaceSt = s.surfaceSt := rfl
@[simp] theorem add_curve_loop_fieldSt : (add_curve_loop tags s).fieldSt = s.fieldSt := rfl
@[simp] theorem add_curve_loop_loopLineTags :
    (add_curve_loop tags s).loopLineTags = s.loopLineTags := rfl

@[simp] theorem add_plane_surface_trace :
    (add_plane_surface tags s).trace = s.trace ++ [.addPlaneSurface tags s.nextTag] := rfl
@[simp] theorem add_plane_surface_nextTag :
    (add_plane_surface tags s).nextTag = s.nextTag + 1 := rfl
@[simp] theorem add_plane_surface_pointSt :
    (add_plane_surface tags s).pointSt = s.pointSt := rfl
@[simp] theorem add_plane_surface_lineSt : (add_plane_surface tags s).lineSt = s.lineSt := rfl
@[simp] theorem add_plane_surface_loopSt : (add_plane_surface tags s).loopSt = s.loopSt := rfl
@[simp] theorem add_plane_surface_surfaceSt :
    (add_plane_surface tags s).surfaceSt = s.surfaceSt := rfl
@[simp] theorem add_plane_surface_fieldSt :
    (add_plane_surface tags s).fieldSt = s.fieldSt := rfl
@[simp] theorem add_plane_surface_loopLineTags :
    (add_plane_surface tags s).loopLineTags = s.loopLineTags := rfl

@[simp] theorem add_physical_group_trace :
    (add_physical_group dim tags s).trace = s.trace ++ [.addPhysicalGroup dim tags s.nextTag] :=
  rfl
@[simp] theorem add_physical_group_nextTag :
    (add_physical_group dim tags s).nextTag = s.nextTag + 1 := rfl
@[simp] theorem add_physical_group_pointSt :
    (add_physical_group dim tags s).pointSt = s.pointSt := rfl
@[simp] theorem add_physical_group_lineSt :
    (add_physical_group dim tags s).lineSt = s.lineSt := rfl
@[simp] theorem add_physical_group_loopSt :
    (add_physical_group dim tags s).loopSt = s.loopSt := rfl
@[simp] theorem add_physical_group_surfaceSt :
    (add_physical_group dim tags s).surfaceSt = s.surfaceSt := rfl
@[simp] theorem add_physical_group_fieldSt :
    (add_physical_group dim tags s).fieldSt = s.fieldSt := rfl
@[simp] theorem add_physical_group_loopLineTags :
    (add_physical_group dim tags s).loopLineTags = s.loopLineTags := rfl

@[simp] theorem field_add_trace :
    (field_add kind s).trace = s.trace ++ [.fieldAdd kind s.nextTag] := rfl
@[simp] theorem field_add_nextTag : (field_add kind s).nextTag = s.nextTag + 1 := rfl
@[simp] theorem field_add_pointSt : (field_add kind s).pointSt = s.pointSt := rfl
@[simp] theorem field_add_lineSt : (field_add kind s).lineSt = s.lineSt := rfl
@[simp] theorem field_add_loopSt : (field_add kind s).loopSt = s.loopSt := rfl
@[simp] theorem field_add_surfaceSt : (field_add kind s).surfaceSt = s.surfaceSt := rfl
@[simp] theorem field_add_fieldSt : (field_add kind s).fieldSt = s.fieldSt := rfl
@[simp] theorem field_add_loopLineTags : (field_add kind s).loopLineTags = s.loopLineTags := rfl

@[simp] theorem EntState.markBefore_before : (EntState.markBefore st).before_sync_initiated = true := rfl
@[simp] theorem EntState.markBefore_after :
    (EntState.markBefore st).after_sync_initiated = st.after_sync_initiated := rfl
@[simp] theorem EntState.markBefore_tag : (EntState.markBefore st).tag = st.tag := rfl
@[simp] theorem EntState.markAfter_after : (EntState.markAfter st).after_sync_initiated = true := rfl
@[simp] theorem EntState.markAfter_before :
    (EntState.markAfter st).before_sync_initiated = st.before_sync_initiated := rfl
@[simp] theorem EntState.markAfter_tag : (EntState.markAfter st).tag = st.tag := rfl
@[simp] theorem EntState.withTag_tag : (EntState.withTag t st).tag = some t := rfl
@[simp] theorem EntState.withTag_before :
    (EntState.withTag t st).before_sync_initiated = st.before_sync_initiated := rfl
@[simp] theorem EntState.withTag_after :
    (EntState.withTag t st).after_sync_initiated = st.after_sync_initiated := rfl

end ProjectionLemmas

/-! ### Second and later calls are no-ops -/

theorem Point_before_sync_noop (a : Arena) {i : Nat} {s : GState}
    (h : (s.pointSt i).before_sync_initiated = true) : Point.before_sync a i s = s := by
  unfold Point.before_sync
  rw [if_pos h]
  exact updPoint_eq_self (EntState.markBefore_eq_self h)

theorem Line_before_sync_noop (a : Arena) {i : Nat} {s : GState}
    (h : (s.lineSt i).before_sync_initiated = true) : Line.before_sync a i s = s := by
  unfold Line.before_sync
  rw [if_pos h]
  exact updLine_eq_self (EntState.markBefore_eq_self h)

theorem CurveLoop_before_sync_noop (a : Arena) {i : Nat} {s : GState}
    (h : (s.loopSt i).before_sync_initiated = true) : CurveLoop.before_sync a i s = s := by
  unfold CurveLoop.before_sync
  rw [if_pos h]
  exact updLoop_eq_self (EntState.markBefore_eq_self h)

theorem PlaneSurface_before_sync_noop (a : Arena) {i : Nat} {s : GState}
    (h : (s.surfaceSt i).before_sync_initiated = true) : PlaneSurface.before_sync a i s = s := by
  unfold PlaneSurface.before_sync
  rw [if_pos h]
  exact updSurface_eq_self (EntState.markBefore_eq_self h)

theorem MeshTransaction_before_sync_noop (a : Arena) {t : MeshTransaction} {s : GState}
    (h : t.constructed s = true) : MeshTransaction.before_sync a t s = s := by
  cases t with
  | point i => exact Point_before_sync_noop a h
  | line i => exact Line_before_sync_noop a h
  | curveLoop i => exact CurveLoop_before_sync_noop a h
  | planeSurface i => exact PlaneSurface_before_sync_noop a h

/-! ### The flag is set after the call -/

theorem Point_before_sync_flag (a : Arena) (i : Nat) (s : GState) :
    ((Point.before_sync a i s).pointSt i).before_sync_initiated = true := by
  unfold Point.before_sync
  simp

theorem Line_before_sync_flag (a : Arena) (i : Nat) (s : GState) :
    ((Line.before_sync a i s).lineSt i).before_sync_initiated = true := by
  unfold Line.before_sync
  simp

theorem CurveLoop_before_sync_flag (a : Arena) (i : Nat) (s : GState) :
    ((CurveLoop.before_sync a i s).loopSt i).before_sync_initiated = true := by
  unfold CurveLoop.before_sync
  simp

theorem PlaneSurface_before_sync_flag (a : Arena) (i : Nat) (s : GState) :
    ((PlaneSurface.before_sync a i s).surfaceSt i).before_sync_initiated = true := by
  unfold PlaneSurface.before_sync
  simp

theorem MeshTransaction_before_sync_flag (a : Arena) (t : MeshTransaction) (s : GState) :
    t.constructed (MeshTransaction.before_sync a t s) = true := by
  cases t with
  | point i => exact Point_before_sync_flag a i s
  | line i => exact Line_before_sync_flag a i s
  | curveLoop i => exact CurveLoop_before_sync_flag a i s
  | planeSurface i => exact PlaneSurface_before_sync_flag a i s

/-! ### Trace extension: an operation only appends events satisfying `P` -/

theorem TraceExt.of_trace_eq {P : Event → Bool} {s s' : GState} (h : s'.trace = s.trace) :
    TraceExt P s s' := ⟨[], by simp [h], by simp⟩

theorem TraceExt.refl (P : Event → Bool) (s : GState) : TraceExt P s s :=
  .of_trace_eq rfl

theorem TraceExt.trans {P : Event → Bool} {s1 s2 s3 : GState}
    (h1 : TraceExt P s1 s2) (h2 : TraceExt P s2 s3) : TraceExt P s1 s3 := by
  obtain ⟨d1, ht1, hm1⟩ := h1
  obtain ⟨d2, ht2, hm2⟩ := h2
  refine ⟨d1 ++ d2, by simp [ht2, ht1], ?_⟩
  intro e he
  rcases List.mem_append.1 he with h | h
  · exact hm1 e h
  · exact hm2 e h

theorem TraceExt.mono {P Q : Event → Bool} {s s' : GState}
    (hPQ : ∀ e, P e = true → Q e = true) (h : TraceExt P s s') : TraceExt Q s s' := by
  obtain ⟨d, ht, hm⟩ := h
  exact ⟨d, ht, fun e he => hPQ e (hm e he)⟩

theorem TraceExt.emit {P : Event → Bool} (e : Event) (s : GState) (h : P e = true) :
    TraceExt P s (emit e s) := ⟨[e], by simp, by simp [h]⟩

theorem TraceExt.appendEvents {P : Event → Bool} {evs : List Event} (s : GState)
    (h : ∀ e ∈ evs, P e = true) : TraceExt P s (appendEvents evs s) := ⟨evs, by simp, h⟩

theorem TraceExt.foldl {α : Type} {P : Event → Bool} (step : GState → α → GState)
    (l : List α) (h : ∀ x ∈ l, ∀ s, TraceExt P s (step s x)) :
    ∀ s : GState, TraceExt P s (l.foldl step s) := by
  induction l with
  | nil => exact fun s => TraceExt.refl P s
  | cons x xs ih =>
      intro s
      exact (h x (by simp) s).trans
        (ih (fun y hy s' => h y (by simp [hy]) s') (step s x))

theorem countP_singleton (p : Event → Bool) (e : Event) :
    countP p [e] = if p e then 1 else 0 := by
  simp [countP, List.filter]
  split <;> simp_all

theorem countP_eq_zero {p : Event → Bool} {d : List Event} (h : ∀ e ∈ d, p e = false) :
    countP p d = 0 := by
  simp only [countP, List.length_eq_zero, List.filter_eq_nil_iff]
  intro e he
  simp [h e he]

/-- If an operation only appends `P`-events and `P` excludes `q`, the
`q`-count is unchanged. -/
theorem countP_eq_of_traceExt {P q : Event → Bool} {s s' : GState}
    (h : TraceExt P s s') (hdisj : ∀ e, P e = true → q e = false) :
    countP q s'.trace = countP q s.trace := by
  obtain ⟨d, ht, hm⟩ := h
  rw [ht, countP_append, countP_eq_zero (fun e he => hdisj e (hm e he))]
  omega

theorem TraceExt.congr {P : Event → Bool} {s s' s'' : GState}
    (h : TraceExt P s s') (heq : s''.trace = s'.trace) : TraceExt P s s'' := by
  obtain ⟨d, ht, hm⟩ := h
  exact ⟨d, heq.trans ht, hm⟩

theorem TraceExt.add_point {P : Event → Bool} (x y z ms : Rat) (s : GState)
    (h : P (.addPoint x y z ms s.nextTag) = true) : TraceExt P s (add_point x y z ms s) :=
  ⟨[.addPoint x y z ms s.nextTag], by simp, by simp [h]⟩

theorem TraceExt.add_line {P : Event → Bool} (t1 t2 : Nat) (s : GState)
    (h : P (.addLine t1 t2 s.nextTag) = true) : TraceExt P s (add_line t1 t2 s) :=
  ⟨[.addLine t1 t2 s.nextTag], by simp, by simp [h]⟩

theorem TraceExt.add_curve_loop {P : Event → Bool} (tags : List Nat) (s : GState)
    (h : P (.addCurveLoop tags s.nextTag) = true) : TraceExt P s (add_curve_loop tags s) :=
  ⟨[.addCurveLoop tags s.nextTag], by simp, by simp [h]⟩

theorem TraceExt.add_plane_surface {P : Event → Bool} (tags : List Nat) (s : GState)
    (h : P (.addPlaneSurface tags s.nextTag) = true) :
    TraceExt P s (add_plane_surface tags s) :=
  ⟨[.addPlaneSurface tags s.nextTag], by simp, by simp [h]⟩

theorem TraceExt.add_physical_group {P : Event → Bool} (dim : Nat) (tags : List Nat)
    (s : GState) (h : P (.addPhysicalGroup dim tags s.nextTag) = true) :
    TraceExt P s (add_physical_group dim tags s) :=
  ⟨[.addPhysicalGroup dim tags s.nextTag], by simp, by simp [h]⟩

theorem TraceExt.field_add {P : Event → Bool} (kind : String) (s : GState)
    (h : P (.fieldAdd kind s.nextTag) = true) : TraceExt P s (field_add kind s) :=
  ⟨[.fieldAdd kind s.nextTag], by simp, by simp [h]⟩

/-! ### Event-kind implications -/

theorem construction_of_pl {e : Event} (h : (e.isAddPoint || e.isAddLine) = true) :
    e.isConstruction = true := by
  cases e <;> simp_all [Event.isAddPoint, Event.isAddLine, Event.isConstruction]

theorem construction_of_plc {e : Event}
    (h : (e.isAddPoint || e.isAddLine || e.isAddCurveLoop) = true) :
    e.isConstruction = true := by
  cases e <;>
    simp_all [Event.isAddPoint, Event.isAddLine, Event.isAddCurveLoop, Event.isConstruction]

theorem not_isAddLine_of_isAddPoint {e : Event} (h : e.isAddPoint = true) :
    e.isAddLine = false := by
  cases e <;> simp_all [Event.isAddPoint, Event.isAddLine]

theorem not_isAddCurveLoop_of_pl {e : Event} (h : (e.isAddPoint || e.isAddLine) = true) :
    e.isAddCurveLoop = false := by
  cases e <;> simp_all [Event.isAddPoint, Event.isAddLine, Event.isAddCurveLoop]

theorem not_isAddPlaneSurface_of_plc {e : Event}
    (h : (e.isAddPoint || e.isAddLine || e.isAddCurveLoop) = true) :
    e.isAddPlaneSurface = false := by
  cases e <;>
    simp_all [Event.isAddPoint, Event.isAddLine, Event.isAddCurveLoop, Event.isAddPlaneSurface]

/-! ### Per-operation trace extension and creation counts -/

theorem Point_before_sync_ext (a : Arena) (i : Nat) (s : GState) :
    TraceExt Event.isAddPoint s (Point.before_sync a i s) := by
  by_cases h : (s.pointSt i).before_sync_initiated
  · exact .of_trace_eq (by simp [Point.before_sync, h])
  · exact (TraceExt.add_point (a.points.getD i dfltPoint).x (a.points.getD i dfltPoint).y
      (a.points.getD i dfltPoint).z (a.points.getD i dfltPoint).mesh_size s
      (by simp [Event.isAddPoint])).congr (by simp [Point.before_sync, h])

theorem Point_before_sync_count (a : Arena) (i : Nat) (s : GState) :
    countP Event.isAddPoint (Point.before_sync a i s).trace
      = countP Event.isAddPoint s.trace
        + (if (s.pointSt i).before_sync_initiated then 0 else 1) := by
  by_cases h : (s.pointSt i).before_sync_initiated <;>
    simp [Point.before_sync, h, countP_append, countP_singleton, Event.isAddPoint]

theorem Line_before_sync_ext (a : Arena) (i : Nat) (s : GState) :
    TraceExt (fun e => e.isAddPoint || e.isAddLine) s (Line.before_sync a i s) := by
  by_cases h : (s.lineSt i).before_sync_initiated
  · exact .of_trace_eq (by simp [Line.before_sync, h])
  · have h1 := (Point_before_sync_ext a (a.lines.getD i dfltLine).start s).mono
      (Q := fun e => e.isAddPoint || e.isAddLine) (fun e he => by simp [he])
    have h2 := (Point_before_sync_ext a (a.lines.getD i dfltLine).endp
      (Point.before_sync a (a.lines.getD i dfltLine).start s)).mono
      (Q := fun e => e.isAddPoint || e.isAddLine) (fun e he => by simp [he])
    have h3 := TraceExt.add_line (P := fun e => e.isAddPoint || e.isAddLine)
      (((Point.before_sync a (a.lines.getD i dfltLine).endp
        (Point.before_sync a (a.lines.getD i dfltLine).start s)).pointSt
          (a.lines.getD i dfltLine).start).tag.getD 0)
      (((Point.before_sync a (a.lines.getD i dfltLine).endp
        (Point.before_sync a (a.lines.getD i dfltLine).start s)).pointSt
          (a.lines.getD i dfltLine).endp).tag.getD 0)
      (Point.before_sync a (a.lines.getD i dfltLine).endp
        (Point.before_sync a (a.lines.getD i dfltLine).start s))
      (by simp [Event.isAddLine])
    exact ((h1.trans h2).trans h3).congr (by simp [Line.before_sync, h])

theorem Line_before_sync_count (a : Arena) (i : Nat) (s : GState) :
    countP Event.isAddLine (Line.before_sync a i s).trace
      = countP Event.isAddLine s.trace
        + (if (s.lineSt i).before_sync_initiated then 0 else 1) := by
  by_cases h : (s.lineSt i).before_sync_initiated
  · simp [Line.before_sync, h]
  · have e1 := countP_eq_of_traceExt (q := Event.isAddLine)
      (Point_before_sync_ext a (a.lines.getD i dfltLine).start s)
      (fun e he => not_isAddLine_of_isAddPoint he)
    have e2 := countP_eq_of_traceExt (q := Event.isAddLine)
      (Point_before_sync_ext a (a.lines.getD i dfltLine).endp
        (Point.before_sync a (a.lines.getD i dfltLine).start s))
      (fun e he => not_isAddLine_of_isAddPoint he)
    simp only [Line.before_sync, if_neg h, updLine_trace, add_line_trace, countP_append,
      countP_singleton, e2, e1]
    simp [Event.isAddLine]

/-- The trace (and every non-field component) is untouched by the
`before_sync` field loop of `CurveLoop.before_sync`. -/
theorem fieldsBefore_foldl_trace (l : List Nat) (s : GState) :
    (l.foldl fieldsBeforeStep s).trace = s.trace := by
  induction l generalizing s with
  | nil => rfl
  | cons x xs ih => simp [List.foldl, ih, fieldsBeforeStep, Field.before_sync]

theorem loopLineStep_ext (a : Arena) (ci : Nat) (li : Nat) (s : GState) :
    TraceExt (fun e => e.isAddPoint || e.isAddLine) s (loopLineStep a ci s li) :=
  (Line_before_sync_ext a li s).congr (by simp [loopLineStep])

theorem CurveLoop_before_sync_ext (a : Arena) (ci : Nat) (s : GState) :
    TraceExt (fun e => e.isAddPoint || e.isAddLine || e.isAddCurveLoop) s
      (CurveLoop.before_sync a ci s) := by
  by_cases h : (s.loopSt ci).before_sync_initiated
  · exact .of_trace_eq (by simp [CurveLoop.before_sync, h])
  · have h1 := (TraceExt.foldl (loopLineStep a ci) (a.loops.getD ci dfltLoop).lines
      (fun li _ s' => loopLineStep_ext a ci li s') s).mono
      (Q := fun e => e.isAddPoint || e.isAddLine || e.isAddCurveLoop)
      (fun e he => by revert he; cases e <;>
        simp [Event.isAddPoint, Event.isAddLine, Event.isAddCurveLoop])
    have h2 := TraceExt.add_curve_loop
      (P := fun e => e.isAddPoint || e.isAddLine || e.isAddCurveLoop)
      (((a.loops.getD ci dfltLoop).lines.foldl (loopLineStep a ci) s).loopLineTags ci)
      ((a.loops.getD ci dfltLoop).lines.foldl (loopLineStep a ci) s)
      (by simp [Event.isAddCurveLoop])
    refine (h1.trans h2).congr ?_
    simp only [CurveLoop.before_sync, if_neg h, updLoop_trace]
    rw [fieldsBefore_foldl_trace]
    simp

theorem CurveLoop_before_sync_count (a : Arena) (ci : Nat) (s : GState) :
    countP Event.isAddCurveLoop (CurveLoop.before_sync a ci s).trace
      = countP Event.isAddCurveLoop s.trace
        + (if (s.loopSt ci).before_sync_initiated then 0 else 1) := by
  by_cases h : (s.loopSt ci).before_sync_initiated
  · simp [CurveLoop.before_sync, h]
  · have e1 := countP_eq_of_traceExt (q := Event.isAddCurveLoop)
      (TraceExt.foldl (loopLineStep a ci) (a.loops.getD ci dfltLoop).lines
        (fun li _ s' => loopLineStep_ext a ci li s') s)
      (fun e he => not_isAddCurveLoop_of_pl he)
    simp only [CurveLoop.before_sync, if_neg h, updLoop_trace]
    rw [fieldsBefore_foldl_trace]
    simp only [updLoop_trace, add_curve_loop_trace, countP_append, countP_singleton, e1]
    simp [Event.isAddCurveLoop]

theorem surfaceLoop_foldl_fst (a : Arena) (l : List Nat) (s : GState) (ts : List Nat) :
    (l.foldl (surfaceLoopStep a) (s, ts)).1
      = l.foldl (fun s' ci => CurveLoop.before_sync a ci s') s := by
  induction l generalizing s ts with
  | nil => rfl
  | cons x xs ih => simpa [List.foldl, surfaceLoopStep] using ih (CurveLoop.before_sync a x s) _

theorem PlaneSurface_before_sync_ext (a : Arena) (si : Nat) (s : GState) :
    TraceExt Event.isConstruction s (PlaneSurface.before_sync a si s) := by
  by_cases h : (s.surfaceSt si).before_sync_initiated
  · exact .of_trace_eq (by simp [PlaneSurface.before_sync, h])
  · have h1 := (TraceExt.foldl (fun s' ci => CurveLoop.before_sync a ci s')
      ((a.surfaces.getD si dfltSurface).outlines ++ (a.surfaces.getD si dfltSurface).holes)
      (fun ci _ s' => (CurveLoop_before_sync_ext a ci s').mono
        (Q := Event.isConstruction) (fun e he => construction_of_plc he)) s)
    have h2 := TraceExt.add_plane_surface (P := Event.isConstruction)
      (((a.surfaces.getD si dfltSurface).outlines
          ++ (a.surfaces.getD si dfltSurface).holes).foldl (surfaceLoopStep a) (s, [])).2
      (((a.surfaces.getD si dfltSurface).outlines
          ++ (a.surfaces.getD si dfltSurface).holes).foldl
        (fun s' ci => CurveLoop.before_sync a ci s') s)
      (by simp [Event.isConstruction])
    refine (h1.trans h2).congr ?_
    simp only [PlaneSurface.before_sync, if_neg h, updSurface_trace, add_plane_surface_trace,
      surfaceLoop_foldl_fst]

theorem PlaneSurface_before_sync_count (a : Arena) (si : Nat) (s : GState) :
    countP Event.isAddPlaneSurface (PlaneSurface.before_sync a si s).trace
      = countP Event.isAddPlaneSurface s.trace
        + (if (s.surfaceSt si).before_sync_initiated then 0 else 1) := by
  by_cases h : (s.surfaceSt si).before_sync_initiated
  · simp [PlaneSurface.before_sync, h]
  · have e1 := countP_eq_of_traceExt (q := Event.isAddPlaneSurface)
      (TraceExt.foldl (fun s' ci => CurveLoop.before_sync a ci s')
        ((a.surfaces.getD si dfltSurface).outlines ++ (a.surfaces.getD si dfltSurface).holes)
        (fun ci _ s' => CurveLoop_before_sync_ext a ci s') s)
      (fun e he => not_isAddPlaneSurface_of_plc he)
    simp only [PlaneSurface.before_sync, if_neg h, updSurface_trace, add_plane_surface_trace,
      surfaceLoop_foldl_fst, countP_append, countP_singleton, e1]
    simp [Event.isAddPlaneSurface]

theorem MeshTransaction_before_sync_ext (a : Arena) (t : MeshTransaction) (s : GState) :
    TraceExt Event.isConstruction s (MeshTransaction.before_sync a t s) := by
  cases t with
  | point i =>
      exact (Point_before_sync_ext a i s).mono (fun e he => isConstruction_of_isAddPoint he)
  | line i => exact (Line_before_sync_ext a i s).mono (fun e he => construction_of_pl he)
  | curveLoop i =>
      exact (CurveLoop_before_sync_ext a i s).mono (fun e he => construction_of_plc he)
  | planeSurface i => exact PlaneSurface_before_sync_ext a i s

theorem MeshTransaction_before_sync_count (a : Arena) (t : MeshTransaction) (s : GState) :
    countP (t.ownCreation) (MeshTransaction.before_sync a t s).trace
      = countP (t.ownCreation) s.trace + (if t.constructed s then 0 else 1) := by
  cases t with
  | point i => exact Point_before_sync_count a i s
  | line i => exact Line_before_sync_count a i s
  | curveLoop i => exact CurveLoop_before_sync_count a i s
  | planeSurface i => exact PlaneSurface_before_sync_count a i s

theorem MeshTransaction.before_sync_idem (a : Arena) (t : MeshTransaction) (s : GState) :
    MeshTransaction.before_sync a t (MeshTransaction.before_sync a t s)
      = MeshTransaction.before_sync a t s :=
  MeshTransaction_before_sync_noop a (MeshTransaction_before_sync_flag a t s)

theorem MeshTransaction.before_sync_iterate (a : Arena) (t : MeshTransaction) (s : GState) :
    ∀ n, 1 ≤ n →
      (MeshTransaction.before_sync a t)^[n] s = MeshTransaction.before_sync a t s := by
  intro n
  induction n with
  | zero => omega
  | succ m ih =>
      intro _
      rcases Nat.eq_zero_or_pos m with hm | hm
      · subst hm; rfl
      · rw [Function.iterate_succ_apply', ih hm, MeshTransaction.before_sync_idem]

/-- C2: calling `construct` (`before_sync`) `n > 1` times on any entity — a
`Point`, a (transfinite or plain) `Line`, a `CurveLoop` or a (transfinite or
plain) `PlaneSurface` — is indistinguishable from calling it once: the whole
program state after `n` calls equals the state after one call, exactly one
kernel creation call of the entity's own kind is issued over all `n` calls,
and the tag is the one assigned by the first call. -/
theorem construct_idempotent (a : Arena) (t : MeshTransaction) (s : GState) (n : Nat)
    (hn : 1 ≤ n) (hflag : t.constructed s = false) :
    (MeshTransaction.before_sync a t)^[n] s = MeshTransaction.before_sync a t s ∧
    countP t.ownCreation ((MeshTransaction.before_sync a t)^[n] s).trace
      = countP t.ownCreation s.trace + 1 ∧
    t.tagOf ((MeshTransaction.before_sync a t)^[n] s)
      = t.tagOf (MeshTransaction.before_sync a t s) := by
  have hcol := MeshTransaction.before_sync_iterate a t s n hn
  refine ⟨hcol, ?_, by rw [hcol]⟩
  rw [hcol, MeshTransaction_before_sync_count, hflag]
  simp

/-- Witness for `construct_idempotent` at a concrete input: a single `Point`
root in a fresh session, constructed twice. -/
theorem construct_idempotent_witness :
    ((1 : Nat) ≤ 2 ∧ MeshTransaction.constructed (.point 0) initState = false) ∧
    ((MeshTransaction.before_sync {} (.point 0))^[2] initState
        = MeshTransaction.before_sync {} (.point 0) initState ∧
      countP (MeshTransaction.ownCreation (.point 0))
          ((MeshTransaction.before_sync {} (.point 0))^[2] initState).trace
        = countP (MeshTransaction.ownCreation (.point 0)) initState.trace + 1 ∧
      MeshTransaction.tagOf (.point 0)
          ((MeshTransaction.before_sync {} (.point 0))^[2] initState)
        = MeshTransaction.tagOf (.point 0)
            (MeshTransaction.before_sync {} (.point 0) initState)) :=
  ⟨⟨by decide, by rfl⟩, construct_idempotent {} (.point 0) initState 2 (by decide) (by rfl)⟩

/-! ### Flags are monotone under every operation -/

theorem FlagLe.rfl (s : GState) : FlagLe s s :=
  ⟨fun _ h => h, fun _ h => h, fun _ h => h, fun _ h => h, fun _ h => h,
   fun _ h => h, fun _ h => h, fun _ h => h, fun _ h => h, fun _ h => h⟩

theorem FlagLe.trans_flag {s1 s2 s3 : GState} (h1 : FlagLe s1 s2) (h2 : FlagLe s2 s3) :
    FlagLe s1 s3 :=
  ⟨fun i h => h2.pb i (h1.pb i h), fun i h => h2.pa i (h1.pa i h),
   fun i h => h2.lb i (h1.lb i h), fun i h => h2.la i (h1.la i h),
   fun i h => h2.cb i (h1.cb i h), fun i h => h2.ca i (h1.ca i h),
   fun i h => h2.sb i (h1.sb i h), fun i h => h2.sa i (h1.sa i h),
   fun i h => h2.fb i (h1.fb i h), fun i h => h2.fa i (h1.fa i h)⟩

/-- Operations touching only `trace` and `nextTag` respect `FlagLe`. -/
theorem FlagLe.same_states {s s' : GState} (hp : s'.pointSt = s.pointSt)
    (hl : s'.lineSt = s.lineSt) (hc : s'.loopSt = s.loopSt)
    (hs : s'.surfaceSt = s.surfaceSt) (hf : s'.fieldSt = s.fieldSt) : FlagLe s s' :=
  ⟨fun i h => by rw [hp]; exact h, fun i h => by rw [hp]; exact h,
   fun i h => by rw [hl]; exact h, fun i h => by rw [hl]; exact h,
   fun i h => by rw [hc]; exact h, fun i h => by rw [hc]; exact h,
   fun i h => by rw [hs]; exact h, fun i h => by rw [hs]; exact h,
   fun i h => by rw [hf]; exact h, fun i h => by rw [hf]; exact h⟩

/-- A flag-monotone per-entity update respects `FlagLe` (point store). -/
theorem FlagLe.updPointF (i : Nat) (f : EntState → EntState) (s : GState)
    (hb : ∀ st : EntState, st.before_sync_initiated = true →
      (f st).before_sync_initiated = true)
    (ha : ∀ st : EntState, st.after_sync_initiated = true →
      (f st).after_sync_initiated = true) : FlagLe s (updPoint i f s) := by
  refine ⟨fun j h => ?_, fun j h => ?_, fun j h => h, fun j h => h, fun j h => h,
    fun j h => h, fun j h => h, fun j h => h, fun j h => h, fun j h => h⟩ <;>
    rw [updPoint_pointSt_apply] <;> split <;> simp_all [hb, ha]

theorem FlagLe.updLineF (i : Nat) (f : EntState → EntState) (s : GState)
    (hb : ∀ st : EntState, st.before_sync_initiated = true →
      (f st).before_sync_initiated = true)
    (ha : ∀ st : EntState, st.after_sync_initiated = true →
      (f st).after_sync_initiated = true) : FlagLe s (updLine i f s) := by
  refine ⟨fun j h => h, fun j h => h, fun j h => ?_, fun j h => ?_, fun j h => h,
    fun j h => h, fun j h => h, fun j h => h, fun j h => h, fun j h => h⟩ <;>
    rw [updLine_lineSt_apply] <;> split <;> simp_all [hb, ha]

theorem FlagLe.updLoopF (i : Nat) (f : EntState → EntState) (s : GState)
    (hb : ∀ st : EntState, st.before_sync_initiated = true →
      (f st).before_sync_initiated = true)
    (ha : ∀ st : EntState, st.after_sync_initiated = true →
      (f st).after_sync_initiated = true) : FlagLe s (updLoop i f s) := by
  refine ⟨fun j h => h, fun j h => h, fun j h => h, fun j h => h, fun j h => ?_,
    fun j h => ?_, fun j h => h, fun j h => h, fun j h => h, fun j h => h⟩ <;>
    rw [updLoop_loopSt_apply] <;> split <;> simp_all [hb, ha]

theorem FlagLe.updSurfaceF (i : Nat) (f : EntState → EntState) (s : GState)
    (hb : ∀ st : EntState, st.before_sync_initiated = true →
      (f st).before_sync_initiated = true)
    (ha : ∀ st : EntState, st.after_sync_initiated = true →
      (f st).after_sync_initiated = true) : FlagLe s (updSurface i f s) := by
  refine ⟨fun j h => h, fun j h => h, fun j h => h, fun j h => h, fun j h => h,
    fun j h => h, fun j h => ?_, fun j h => ?_, fun j h => h, fun j h => h⟩ <;>
    rw [updSurface_surfaceSt_apply] <;> split <;> simp_all [hb, ha]

theorem FlagLe.updFieldF (i : Nat) (f : EntState → EntState) (s : GState)
    (hb : ∀ st : EntState, st.before_sync_initiated = true →
      (f st).before_sync_initiated = true)
    (ha : ∀ st : EntState, st.after_sync_initiated = true →
      (f st).after_sync_initiated = true) : FlagLe s (updField i f s) := by
  refine ⟨fun j h => h, fun j h => h, fun j h => h, fun j h => h, fun j h => h,
    fun j h => h, fun j h => h, fun j h => h, fun j h => ?_, fun j h => ?_⟩ <;>
    rw [updField_fieldSt_apply] <;> split <;> simp_all [hb, ha]

theorem FlagLe.foldlF {α : Type} (step : GState → α → GState) (l : List α)
    (h : ∀ x ∈ l, ∀ s, FlagLe s (step s x)) : ∀ s : GState, FlagLe s (l.foldl step s) := by
  induction l with
  | nil => exact fun s => FlagLe.rfl s
  | cons x xs ih =>
      intro s
      exact (h x (by simp) s).trans_flag (ih (fun y hy s' => h y (by simp [hy]) s') (step s x))

theorem FlagLe.updPoint_markBefore (i : Nat) (s : GState) :
    FlagLe s (updPoint i EntState.markBefore s) :=
  FlagLe.updPointF i EntState.markBefore s (fun st h => by simp) (fun st h => by simp [h])

theorem FlagLe.updPoint_markAfter (i : Nat) (s : GState) :
    FlagLe s (updPoint i EntState.markAfter s) :=
  FlagLe.updPointF i EntState.markAfter s (fun st h => by simp [h]) (fun st h => by simp)

theorem FlagLe.updPoint_withTag (i t : Nat) (s : GState) :
    FlagLe s (updPoint i (EntState.withTag t) s) :=
  FlagLe.updPointF i (EntState.withTag t) s (fun st h => by simp [h]) (fun st h => by simp [h])

theorem FlagLe.updLine_markBefore (i : Nat) (s : GState) :
    FlagLe s (updLine i EntState.markBefore s) :=
  FlagLe.updLineF i EntState.markBefore s (fun st h => by simp) (fun st h => by simp [h])

theorem FlagLe.updLine_markAfter (i : Nat) (s : GState) :
    FlagLe s (updLine i EntState.markAfter s) :=
  FlagLe.updLineF i EntState.markAfter s (fun st h => by simp [h]) (fun st h => by simp)

theorem FlagLe.updLine_withTag (i t : Nat) (s : GState) :
    FlagLe s (updLine i (EntState.withTag t) s) :=
  FlagLe.updLineF i (EntState.withTag t) s (fun st h => by simp [h]) (fun st h => by simp [h])

theorem FlagLe.updLoop_markBefore (i : Nat) (s : GState) :
    FlagLe s (updLoop i EntState.markBefore s) :=
  FlagLe.updLoopF i EntState.markBefore s (fun st h => by simp) (fun st h => by simp [h])

theorem FlagLe.updLoop_markAfter (i : Nat) (s : GState) :
    FlagLe s (updLoop i EntState.markAfter s) :=
  FlagLe.updLoopF i EntState.markAfter s (fun st h => by simp [h]) (fun st h => by simp)

theorem FlagLe.updLoop_withTag (i t : Nat) (s : GState) :
    FlagLe s (updLoop i (EntState.withTag t) s) :=
  FlagLe.updLoopF i (EntState.withTag t) s (fun st h => by simp [h]) (fun st h => by simp [h])

theorem FlagLe.updSurface_markBefore (i : Nat) (s : GState) :
    FlagLe s (updSurface i EntState.markBefore s) :=
  FlagLe.updSurfaceF i EntState.markBefore s (fun st h => by simp) (fun st h => by simp [h])

theorem FlagLe.updSurface_markAfter (i : Nat) (s : GState) :
    FlagLe s (updSurface i EntState.markAfter s) :=
  FlagLe.updSurfaceF i EntState.markAfter s (fun st h => by simp [h]) (fun st h => by simp)

theorem FlagLe.updSurface_withTag (i t : Nat) (s : GState) :
    FlagLe s (updSurface i (EntState.withTag t) s) :=
  FlagLe.updSurfaceF i (EntState.withTag t) s (fun st h => by simp [h]) (fun st h => by simp [h])

theorem FlagLe.updField_markBefore (i : Nat) (s : GState) :
    FlagLe s (updField i EntState.markBefore s) :=
  FlagLe.updFieldF i EntState.markBefore s (fun st h => by simp) (fun st h => by simp [h])

theorem FlagLe.updField_markAfter (i : Nat) (s : GState) :
    FlagLe s (updField i EntState.markAfter s) :=
  FlagLe.updFieldF i EntState.markAfter s (fun st h => by simp [h]) (fun st h => by simp)

theorem FlagLe.updField_withTag (i t : Nat) (s : GState) :
    FlagLe s (updField i (EntState.withTag t) s) :=
  FlagLe.updFieldF i (EntState.withTag t) s (fun st h => by simp [h]) (fun st h => by simp [h])

theorem Point_before_sync_flagLe (a : Arena) (i : Nat) (s : GState) :
    FlagLe s (Point.before_sync a i s) := by
  by_cases h : (s.pointSt i).before_sync_initiated
  · simp only [Point.before_sync, if_pos h]
    exact FlagLe.updPoint_markBefore i s
  · simp only [Point.before_sync, if_neg h]
    refine FlagLe.trans_flag ?_ (FlagLe.updPoint_markBefore i _)
    refine FlagLe.trans_flag ?_ (FlagLe.updPoint_withTag i _ _)
    exact FlagLe.same_states rfl rfl rfl rfl rfl

theorem Line_before_sync_flagLe (a : Arena) (i : Nat) (s : GState) :
    FlagLe s (Line.before_sync a i s) := by
  by_cases h : (s.lineSt i).before_sync_initiated
  · simp only [Line.before_sync, if_pos h]
    exact FlagLe.updLine_markBefore i s
  · simp only [Line.before_sync, if_neg h]
    have h12 : FlagLe s (Point.before_sync a (a.lines.getD i dfltLine).endp
        (Point.before_sync a (a.lines.getD i dfltLine).start s)) :=
      (Point_before_sync_flagLe a _ s).trans_flag (Point_before_sync_flagLe a _ _)
    refine FlagLe.trans_flag ?_ (FlagLe.updLine_markBefore i _)
    refine FlagLe.trans_flag ?_ (FlagLe.updLine_withTag i _ _)
    exact h12.trans_flag (FlagLe.same_states rfl rfl rfl rfl rfl)

theorem Field_before_sync_flagLe (fi : Nat) (s : GState) :
    FlagLe s (Field.before_sync fi s) :=
  FlagLe.updField_markBefore fi s

theorem CurveLoop_before_sync_flagLe (a : Arena) (ci : Nat) (s : GState) :
    FlagLe s (CurveLoop.before_sync a ci s) := by
  by_cases h : (s.loopSt ci).before_sync_initiated
  · simp only [CurveLoop.before_sync, if_pos h]
    exact FlagLe.updLoop_markBefore ci s
  · simp only [CurveLoop.before_sync, if_neg h]
    have hlines := FlagLe.foldlF (loopLineStep a ci) (a.loops.getD ci dfltLoop).lines
      (fun li _ s' => (Line_before_sync_flagLe a li s').trans_flag
        (FlagLe.same_states rfl rfl rfl rfl rfl)) s
    refine FlagLe.trans_flag ?_ (FlagLe.updLoop_markBefore ci _)
    refine FlagLe.trans_flag ?_ (FlagLe.foldlF fieldsBeforeStep
      (a.loops.getD ci dfltLoop).fields (fun fi _ s' => Field_before_sync_flagLe fi s') _)
    refine FlagLe.trans_flag ?_ (FlagLe.updLoop_withTag ci _ _)
    exact hlines.trans_flag (FlagLe.same_states rfl rfl rfl rfl rfl)

theorem PlaneSurface_before_sync_flagLe (a : Arena) (si : Nat) (s : GState) :
    FlagLe s (PlaneSurface.before_sync a si s) := by
  by_cases h : (s.surfaceSt si).before_sync_initiated
  · simp only [PlaneSurface.before_sync, if_pos h]
    exact FlagLe.updSurface_markBefore si s
  · simp only [PlaneSurface.before_sync, if_neg h, surfaceLoop_foldl_fst]
    have hloops := FlagLe.foldlF (fun s' ci => CurveLoop.before_sync a ci s')
      ((a.surfaces.getD si dfltSurface).outlines ++ (a.surfaces.getD si dfltSurface).holes)
      (fun ci _ s' => CurveLoop_before_sync_flagLe a ci s') s
    refine FlagLe.trans_flag ?_ (FlagLe.updSurface_markBefore si _)
    refine FlagLe.trans_flag ?_ (FlagLe.updSurface_withTag si _ _)
    exact hloops.trans_flag (FlagLe.same_states rfl rfl rfl rfl rfl)

theorem MeshTransaction_before_sync_flagLe (a : Arena) (t : MeshTransaction) (s : GState) :
    FlagLe s (MeshTransaction.before_sync a t s) := by
  cases t with
  | point i => exact Point_before_sync_flagLe a i s
  | line i => exact Line_before_sync_flagLe a i s
  | curveLoop i => exact CurveLoop_before_sync_flagLe a i s
  | planeSurface i => exact PlaneSurface_before_sync_flagLe a i s

/-! ### After-phase operations: flags, monotonicity, trace extension -/

theorem loopRefine_foldl_snd (a : Arena) (l : List Nat)
    (gs : List (String × List Nat)) (s : GState) :
    (l.foldl (loopRefineStep a) (gs, s)).2
      = l.foldl (fun s' li => Line.after_sync a li s') s := by
  induction l generalizing gs s with
  | nil => rfl
  | cons x xs ih => simpa [List.foldl, loopRefineStep] using ih _ (Line.after_sync a x s)

theorem Point_after_sync_flagLe (i : Nat) (s : GState) : FlagLe s (Point.after_sync i s) :=
  FlagLe.updPoint_markAfter i s

theorem Line_after_sync_flagLe (a : Arena) (i : Nat) (s : GState) :
    FlagLe s (Line.after_sync a i s) := by
  rcases htf : (a.lines.getD i dfltLine).transfinite with _ | td
  · simp only [Line.after_sync, htf]
    exact FlagLe.updLine_markAfter i s
  · simp only [Line.after_sync, htf]
    by_cases h : (s.lineSt i).after_sync_initiated
    · rw [if_pos h]
      exact FlagLe.updLine_markAfter i s
    · rw [if_neg h]
      refine FlagLe.trans_flag ?_ (FlagLe.updLine_markAfter i _)
      exact FlagLe.same_states rfl rfl rfl rfl rfl

theorem BoundaryLayer_after_sync_flagLe (a : Arena) (fi ci : Nat) (s : GState) :
    FlagLe s (BoundaryLayer.after_sync a fi ci s) := by
  by_cases h : (s.fieldSt fi).after_sync_initiated
  · simp only [BoundaryLayer.after_sync, if_pos h]
    exact FlagLe.updField_markAfter fi s
  · simp only [BoundaryLayer.after_sync, if_neg h]
    have hstep : FlagLe s (field_add "BoundaryLayer" s) :=
      FlagLe.same_states rfl rfl rfl rfl rfl
    have hmid := hstep.trans_flag
      (FlagLe.updField_withTag fi s.nextTag (field_add "BoundaryLayer" s))
    refine FlagLe.trans_flag ?_ (FlagLe.updField_markAfter fi _)
    exact hmid.trans_flag (FlagLe.same_states rfl rfl rfl rfl rfl)

theorem Field_after_sync_flagLe (a : Arena) (fi ci : Nat) (s : GState) :
    FlagLe s (Field.after_sync a fi ci s) :=
  BoundaryLayer_after_sync_flagLe a fi ci s

theorem CurveLoop_after_sync_flagLe (a : Arena) (ci : Nat) (s : GState) :
    FlagLe s (CurveLoop.after_sync a ci s) := by
  by_cases h : (s.loopSt ci).after_sync_initiated
  · simp only [CurveLoop.after_sync, if_pos h]
    exact FlagLe.updLoop_markAfter ci s
  · simp only [CurveLoop.after_sync, if_neg h, loopRefine_foldl_snd]
    have hlines := FlagLe.foldlF (fun s' li => Line.after_sync a li s')
      (a.loops.getD ci dfltLoop).lines (fun li _ s' => Line_after_sync_flagLe a li s') s
    refine FlagLe.trans_flag ?_ (FlagLe.updLoop_markAfter ci _)
    refine FlagLe.trans_flag ?_ (FlagLe.foldlF (fieldsAfterStep a ci) (a.loops.getD ci dfltLoop).fields
      (fun fi _ s' => Field_after_sync_flagLe a fi ci s') _)
    refine FlagLe.trans_flag ?_ (FlagLe.foldlF groupStep
      ((a.loops.getD ci dfltLoop).lines.foldl (loopRefineStep a) ([], s)).1
      (fun g _ s' => FlagLe.same_states rfl rfl rfl rfl rfl) _)
    exact hlines

theorem PlaneSurface_after_sync_flagLe (a : Arena) (si : Nat) (s : GState) :
    FlagLe s (PlaneSurface.after_sync a si s) := by
  by_cases h : (s.surfaceSt si).after_sync_initiated
  · simp only [PlaneSurface.after_sync, if_pos h]
    exact FlagLe.updSurface_markAfter si s
  · have hloops := FlagLe.foldlF (loopsAfterStep a)
      ((a.surfaces.getD si dfltSurface).outlines ++ (a.surfaces.getD si dfltSurface).holes)
      (fun ci _ s' => CurveLoop_after_sync_flagLe a ci s') s
    rcases hlb : (a.surfaces.getD si dfltSurface).label with _ | lbl
    · by_cases hq : (a.surfaces.getD si dfltSurface).is_quad_mesh
      · simp only [PlaneSurface.after_sync, if_neg h, hlb, if_pos hq]
        refine FlagLe.trans_flag ?_ (FlagLe.updSurface_markAfter si _)
        exact hloops.trans_flag (FlagLe.same_states rfl rfl rfl rfl rfl)
      · simp only [PlaneSurface.after_sync, if_neg h, hlb, if_neg hq]
        refine FlagLe.trans_flag ?_ (FlagLe.updSurface_markAfter si _)
        exact hloops.trans_flag (FlagLe.same_states rfl rfl rfl rfl rfl)
    · by_cases hq : (a.surfaces.getD si dfltSurface).is_quad_mesh
      · simp only [PlaneSurface.after_sync, if_neg h, hlb, if_pos hq]
        refine FlagLe.trans_flag ?_ (FlagLe.updSurface_markAfter si _)
        exact hloops.trans_flag (FlagLe.same_states rfl rfl rfl rfl rfl)
      · simp only [PlaneSurface.after_sync, if_neg h, hlb, if_neg hq]
        refine FlagLe.trans_flag ?_ (FlagLe.updSurface_markAfter si _)
        exact hloops.trans_flag (FlagLe.same_states rfl rfl rfl rfl rfl)

theorem TransfinitePlaneSurface_after_sync_flagLe (a : Arena) (si : Nat) (s : GState) :
    FlagLe s (TransfinitePlaneSurface.after_sync a si s) := by
  by_cases h : (s.surfaceSt si).after_sync_initiated
  · simp only [TransfinitePlaneSurface.after_sync, if_pos h]
    exact PlaneSurface_after_sync_flagLe a si s
  · simp only [TransfinitePlaneSurface.after_sync, if_neg h]
    refine FlagLe.trans_flag ?_ (PlaneSurface_after_sync_flagLe a si _)
    exact FlagLe.same_states rfl rfl rfl rfl rfl

theorem surface_after_sync_dispatch_flagLe (a : Arena) (si : Nat) (s : GState) :
    FlagLe s (surface_after_sync_dispatch a si s) := by
  unfold surface_after_sync_dispatch
  rcases (a.surfaces.getD si dfltSurface).corners with _ | cs
  · exact PlaneSurface_after_sync_flagLe a si s
  · exact TransfinitePlaneSurface_after_sync_flagLe a si s

theorem MeshTransaction_after_sync_flagLe (a : Arena) (t : MeshTransaction) (s : GState) :
    FlagLe s (MeshTransaction.after_sync a t s) := by
  cases t with
  | point i => exact Point_after_sync_flagLe i s
  | line i => exact Line_after_sync_flagLe a i s
  | curveLoop i => exact CurveLoop_after_sync_flagLe a i s
  | planeSurface i => exact surface_after_sync_dispatch_flagLe a i s

theorem Point_after_sync_refined (i : Nat) (s : GState) :
    ((Point.after_sync i s).pointSt i).after_sync_initiated = true := by
  simp [Point.after_sync]

theorem Line_after_sync_refined (a : Arena) (i : Nat) (s : GState) :
    ((Line.after_sync a i s).lineSt i).after_sync_initiated = true := by
  rcases htf : (a.lines.getD i dfltLine).transfinite with _ | td <;>
    simp only [Line.after_sync, htf] <;> simp

theorem CurveLoop_after_sync_refined (a : Arena) (ci : Nat) (s : GState) :
    ((CurveLoop.after_sync a ci s).loopSt ci).after_sync_initiated = true := by
  simp [CurveLoop.after_sync]

theorem PlaneSurface_after_sync_refined (a : Arena) (si : Nat) (s : GState) :
    ((PlaneSurface.after_sync a si s).surfaceSt si).after_sync_initiated = true := by
  simp [PlaneSurface.after_sync]

theorem TransfinitePlaneSurface_after_sync_refined (a : Arena) (si : Nat) (s : GState) :
    ((TransfinitePlaneSurface.after_sync a si s).surfaceSt si).after_sync_initiated = true := by
  unfold TransfinitePlaneSurface.after_sync
  exact PlaneSurface_after_sync_refined a si _

theorem surface_after_sync_dispatch_refined (a : Arena) (si : Nat) (s : GState) :
    ((surface_after_sync_dispatch a si s).surfaceSt si).after_sync_initiated = true := by
  unfold surface_after_sync_dispatch
  rcases (a.surfaces.getD si dfltSurface).corners with _ | cs
  · exact PlaneSurface_after_sync_refined a si s
  · exact TransfinitePlaneSurface_after_sync_refined a si s

theorem MeshTransaction_after_sync_refined (a : Arena) (t : MeshTransaction) (s : GState) :
    t.refined (MeshTransaction.after_sync a t s) = true := by
  cases t with
  | point i => exact Point_after_sync_refined i s
  | line i => exact Line_after_sync_refined a i s
  | curveLoop i => exact CurveLoop_after_sync_refined a i s
  | planeSurface i => exact surface_after_sync_dispatch_refined a i s

theorem mem_ite_singleton {e x : Event} {c : Prop} [Decidable c]
    (h : e ∈ (if c then [x] else [])) : e = x := by
  split at h <;> simp_all

/-- Every optional `setNumber` call of a `BoundaryLayer` is a
`fieldSetNumber` for the field's tag. -/
theorem blOptionalSettings_mem (bl : BoundaryLayer) (t : Nat) :
    ∀ e ∈ blOptionalSettings bl t, ∃ k v, e = Event.fieldSetNumber t k v := by
  intro e he
  simp only [blOptionalSettings, List.mem_append] at he
  rcases he with ((((((h | h) | h) | h) | h) | h) | h) <;>
    exact ⟨_, _, mem_ite_singleton h⟩

theorem Point_after_sync_ext (P : Event → Bool) (i : Nat) (s : GState) :
    TraceExt P s (Point.after_sync i s) :=
  .of_trace_eq rfl

theorem Line_after_sync_ext (a : Arena) (i : Nat) (s : GState) :
    TraceExt (fun e => e.isRefinement && !e.isSetTransfiniteSurface) s
      (Line.after_sync a i s) := by
  rcases htf : (a.lines.getD i dfltLine).transfinite with _ | td
  · exact .of_trace_eq (by simp only [Line.after_sync, htf, updLine_trace])
  · by_cases h : (s.lineSt i).after_sync_initiated
    · exact .of_trace_eq (by simp only [Line.after_sync, htf, if_pos h, updLine_trace])
    · exact (TraceExt.emit (.setTransfiniteCurve ((s.lineSt i).tag.getD 0)
          (td.cell_count + 1) td.mesh_type td.coeff) s
          (by simp [Event.isRefinement, Event.isSetTransfiniteSurface])).congr
        (by simp only [Line.after_sync, htf, if_neg h, updLine_trace])

theorem BoundaryLayer_after_sync_ext (a : Arena) (fi ci : Nat) (s : GState) :
    TraceExt Event.isFieldEvent s (BoundaryLayer.after_sync a fi ci s) := by
  by_cases h : (s.fieldSt fi).after_sync_initiated
  · exact .of_trace_eq (by simp only [BoundaryLayer.after_sync, if_pos h, updField_trace])
  · have h1 := TraceExt.field_add
      (P := Event.isFieldEvent) "BoundaryLayer" s (by simp [Event.isFieldEvent])
    have h2 : TraceExt Event.isFieldEvent (field_add "BoundaryLayer" s)
        (emit (.fieldSetNumbers s.nextTag "CurvesList"
            ((updField fi (EntState.withTag s.nextTag)
              (field_add "BoundaryLayer" s)).loopLineTags ci))
          (updField fi (EntState.withTag s.nextTag) (field_add "BoundaryLayer" s))) :=
      ⟨[.fieldSetNumbers s.nextTag "CurvesList"
          ((updField fi (EntState.withTag s.nextTag)
            (field_add "BoundaryLayer" s)).loopLineTags ci)], by simp,
        by simp [Event.isFieldEvent]⟩
    have h3 : ∀ s' : GState, TraceExt Event.isFieldEvent s'
        (appendEvents (blOptionalSettings (a.fields.getD fi dfltBoundaryLayer) s.nextTag) s') :=
      fun s' => TraceExt.appendEvents s' (fun e he => by
        obtain ⟨k, v, rfl⟩ := blOptionalSettings_mem _ _ e he
        simp [Event.isFieldEvent])
    have h4 : ∀ s' : GState, TraceExt Event.isFieldEvent s'
        (emit (.fieldSetAsBoundaryLayer s.nextTag) s') :=
      fun s' => TraceExt.emit (.fieldSetAsBoundaryLayer s.nextTag) s'
        (by simp [Event.isFieldEvent])
    refine TraceExt.congr (((h1.trans h2).trans (h3 _)).trans (h4 _)) ?_
    simp only [BoundaryLayer.after_sync, if_neg h, updField_trace]

theorem subP_of_isFieldEvent {e : Event} (h : e.isFieldEvent = true) :
    (e.isRefinement && !e.isSetTransfiniteSurface) = true := by
  cases e <;> simp_all [Event.isFieldEvent, Event.isRefinement, Event.isSetTransfiniteSurface]

theorem Field_after_sync_ext (a : Arena) (fi ci : Nat) (s : GState) :
    TraceExt (fun e => e.isRefinement && !e.isSetTransfiniteSurface) s
      (Field.after_sync a fi ci s) :=
  (BoundaryLayer_after_sync_ext a fi ci s).mono (fun e he => subP_of_isFieldEvent he)

theorem groupStep_ext (s : GState) (g : String × List Nat) :
    TraceExt (fun e => e.isRefinement && !e.isSetTransfiniteSurface) s (groupStep s g) := by
  have h1 : TraceExt (fun e => e.isRefinement && !e.isSetTransfiniteSurface) s
      (emit (.setPhysicalName 1 s.nextTag g.1) (add_physical_group 1 g.2 s)) :=
    ⟨[.addPhysicalGroup 1 g.2 s.nextTag, .setPhysicalName 1 s.nextTag g.1], by simp,
      by simp [Event.isRefinement, Event.isSetTransfiniteSurface]⟩
  exact TraceExt.congr h1 (by simp [groupStep])

theorem CurveLoop_after_sync_ext (a : Arena) (ci : Nat) (s : GState) :
    TraceExt (fun e => e.isRefinement && !e.isSetTransfiniteSurface) s
      (CurveLoop.after_sync a ci s) := by
  by_cases h : (s.loopSt ci).after_sync_initiated
  · exact .of_trace_eq (by simp only [CurveLoop.after_sync, if_pos h, updLoop_trace])
  · have h1 := TraceExt.foldl (fun s' li => Line.after_sync a li s')
      (a.loops.getD ci dfltLoop).lines (fun li _ s' => Line_after_sync_ext a li s') s
    have h2 := TraceExt.foldl groupStep
      ((a.loops.getD ci dfltLoop).lines.foldl (loopRefineStep a) ([], s)).1
      (fun g _ s' => groupStep_ext s' g)
      ((a.loops.getD ci dfltLoop).lines.foldl (fun s' li => Line.after_sync a li s') s)
    have h3 := TraceExt.foldl (fieldsAfterStep a ci) (a.loops.getD ci dfltLoop).fields
      (fun fi _ s' => (Field_after_sync_ext a fi ci s').congr (by simp [fieldsAfterStep]))
      (((a.loops.getD ci dfltLoop).lines.foldl (loopRefineStep a) ([], s)).1.foldl groupStep
        ((a.loops.getD ci dfltLoop).lines.foldl (fun s' li => Line.after_sync a li s') s))
    refine TraceExt.congr ((h1.trans h2).trans h3) ?_
    simp only [CurveLoop.after_sync, if_neg h, updLoop_trace, loopRefine_foldl_snd]

theorem refinement_of_subP {e : Event}
    (h : (e.isRefinement && !e.isSetTransfiniteSurface) = true) : e.isRefinement = true := by
  simp_all

theorem PlaneSurface_after_sync_ext (a : Arena) (si : Nat) (s : GState) :
    TraceExt (fun e => e.isRefinement && !e.isSetTransfiniteSurface) s
      (PlaneSurface.after_sync a si s) := by
  by_cases h : (s.surfaceSt si).after_sync_initiated
  · exact .of_trace_eq (by simp only [PlaneSurface.after_sync, if_pos h, updSurface_trace])
  · have h1 := TraceExt.foldl (loopsAfterStep a)
      ((a.surfaces.getD si dfltSurface).outlines ++ (a.surfaces.getD si dfltSurface).holes)
      (fun ci _ s' => (CurveLoop_after_sync_ext a ci s').congr rfl) s
    rcases hlb : (a.surfaces.getD si dfltSurface).label with _ | lbl
    · by_cases hq : (a.surfaces.getD si dfltSurface).is_quad_mesh
      · simp only [PlaneSurface.after_sync, if_neg h, hlb, if_pos hq]
        refine TraceExt.congr ?_ updSurface_trace
        refine TraceExt.trans ?_ (TraceExt.emit _ _
          (by simp [Event.isRefinement, Event.isSetTransfiniteSurface]))
        exact h1
      · simp only [PlaneSurface.after_sync, if_neg h, hlb, if_neg hq]
        exact TraceExt.congr h1 updSurface_trace
    · by_cases hq : (a.surfaces.getD si dfltSurface).is_quad_mesh
      · simp only [PlaneSurface.after_sync, if_neg h, hlb, if_pos hq]
        refine TraceExt.congr ?_ updSurface_trace
        refine TraceExt.trans ?_ (TraceExt.emit _ _
          (by simp [Event.isRefinement, Event.isSetTransfiniteSurface]))
        refine TraceExt.trans ?_ (TraceExt.emit _ _
          (by simp [Event.isRefinement, Event.isSetTransfiniteSurface]))
        refine TraceExt.trans ?_ (TraceExt.add_physical_group _ _ _
          (by simp [Event.isRefinement, Event.isSetTransfiniteSurface]))
        exact h1
      · simp only [PlaneSurface.after_sync, if_neg h, hlb, if_neg hq]
        refine TraceExt.congr ?_ updSurface_trace
        refine TraceExt.trans ?_ (TraceExt.emit _ _
          (by simp [Event.isRefinement, Event.isSetTransfiniteSurface]))
        refine TraceExt.trans ?_ (TraceExt.add_physical_group _ _ _
          (by simp [Event.isRefinement, Event.isSetTransfiniteSurface]))
        exact h1

theorem TransfinitePlaneSurface_after_sync_ext (a : Arena) (si : Nat) (s : GState) :
    TraceExt Event.isRefinement s (TransfinitePlaneSurface.after_sync a si s) := by
  by_cases h : (s.surfaceSt si).after_sync_initiated
  · simp only [TransfinitePlaneSurface.after_sync, if_pos h]
    exact (PlaneSurface_after_sync_ext a si s).mono (fun e he => refinement_of_subP he)
  · simp only [TransfinitePlaneSurface.after_sync, if_neg h]
    refine TraceExt.trans ?_
      ((PlaneSurface_after_sync_ext a si _).mono (fun e he => refinement_of_subP he))
    exact TraceExt.emit _ s (by simp [Event.isRefinement])

theorem surface_after_sync_dispatch_ext (a : Arena) (si : Nat) (s : GState) :
    TraceExt Event.isRefinement s (surface_after_sync_dispatch a si s) := by
  unfold surface_after_sync_dispatch
  rcases (a.surfaces.getD si dfltSurface).corners with _ | cs
  · exact (PlaneSurface_after_sync_ext a si s).mono (fun e he => refinement_of_subP he)
  · exact TransfinitePlaneSurface_after_sync_ext a si s

theorem MeshTransaction_after_sync_ext (a : Arena) (t : MeshTransaction) (s : GState) :
    TraceExt Event.isRefinement s (MeshTransaction.after_sync a t s) := by
  cases t with
  | point i => exact Point_after_sync_ext Event.isRefinement i s
  | line i => exact (Line_after_sync_ext a i s).mono (fun e he => refinement_of_subP he)
  | curveLoop i =>
      exact (CurveLoop_after_sync_ext a i s).mono (fun e he => refinement_of_subP he)
  | planeSurface i => exact surface_after_sync_dispatch_ext a i s

/-! ### The session: two-phase traversal -/

theorem Geometry.constructAll_ext (a : Arena) (ts : Sum MeshTransaction (List MeshTransaction))
    (s : GState) : TraceExt Event.isConstruction s (Geometry.constructAll a ts s) := by
  cases ts with
  | inl t => exact MeshTransaction_before_sync_ext a t s
  | inr l =>
      exact TraceExt.foldl (fun s' t => MeshTransaction.before_sync a t s') l
        (fun t _ s' => MeshTransaction_before_sync_ext a t s') s

theorem Geometry.refineAll_ext (a : Arena) (ts : Sum MeshTransaction (List MeshTransaction))
    (s : GState) : TraceExt Event.isRefinement s (Geometry.refineAll a ts s) := by
  cases ts with
  | inl t => exact MeshTransaction_after_sync_ext a t s
  | inr l =>
      exact TraceExt.foldl (fun s' t => MeshTransaction.after_sync a t s') l
        (fun t _ s' => MeshTransaction_after_sync_ext a t s') s

theorem MeshTransaction.constructed_mono {s s' : GState} (h : FlagLe s s')
    {t : MeshTransaction} (hc : t.constructed s = true) : t.constructed s' = true := by
  cases t with
  | point i => exact h.pb i hc
  | line i => exact h.lb i hc
  | curveLoop i => exact h.cb i hc
  | planeSurface i => exact h.sb i hc

theorem MeshTransaction.refined_mono {s s' : GState} (h : FlagLe s s')
    {t : MeshTransaction} (hc : t.refined s = true) : t.refined s' = true := by
  cases t with
  | point i => exact h.pa i hc
  | line i => exact h.la i hc
  | curveLoop i => exact h.ca i hc
  | planeSurface i => exact h.sa i hc

theorem foldl_before_sync_constructed (a : Arena) (l : List MeshTransaction) :
    ∀ s : GState, ∀ t ∈ l,
      t.constructed (l.foldl (fun s' t' => MeshTransaction.before_sync a t' s') s) = true := by
  induction l with
  | nil => intro s t ht; simp at ht
  | cons x xs ih =>
      intro s t ht
      rcases List.mem_cons.1 ht with rfl | hmem
      · exact MeshTransaction.constructed_mono
          (FlagLe.foldlF (fun s' t' => MeshTransaction.before_sync a t' s') xs
            (fun y _ s' => MeshTransaction_before_sync_flagLe a y s') _)
          (MeshTransaction_before_sync_flag a t s)
      · exact ih (MeshTransaction.before_sync a x s) t hmem

theorem foldl_after_sync_refined (a : Arena) (l : List MeshTransaction) :
    ∀ s : GState, ∀ t ∈ l,
      t.refined (l.foldl (fun s' t' => MeshTransaction.after_sync a t' s') s) = true := by
  induction l with
  | nil => intro s t ht; simp at ht
  | cons x xs ih =>
      intro s t ht
      rcases List.mem_cons.1 ht with rfl | hmem
      · exact MeshTransaction.refined_mono
          (FlagLe.foldlF (fun s' t' => MeshTransaction.after_sync a t' s') xs
            (fun y _ s' => MeshTransaction_after_sync_flagLe a y s') _)
          (MeshTransaction_after_sync_refined a t s)
      · exact ih (MeshTransaction.after_sync a x s) t hmem

theorem Geometry.constructAll_constructed (a : Arena)
    (ts : Sum MeshTransaction (List MeshTransaction)) (s : GState) :
    ∀ t ∈ rootsOf ts, t.constructed (Geometry.constructAll a ts s) = true := by
  cases ts with
  | inl t0 =>
      intro t ht
      simp only [rootsOf, List.mem_singleton] at ht
      subst ht
      exact MeshTransaction_before_sync_flag a t s
  | inr l => exact fun t ht => foldl_before_sync_constructed a l s t ht

theorem Geometry.refineAll_refined (a : Arena)
    (ts : Sum MeshTransaction (List MeshTransaction)) (s : GState) :
    ∀ t ∈ rootsOf ts, t.refined (Geometry.refineAll a ts s) = true := by
  cases ts with
  | inl t0 =>
      intro t ht
      simp only [rootsOf, List.mem_singleton] at ht
      subst ht
      exact MeshTransaction_after_sync_refined a t s
  | inr l => exact fun t ht => foldl_after_sync_refined a l s t ht

/-- C1: `Geometry.generate`, for a single root or an ordered root list,
produces a trace of the shape
phase-1 ++ [synchronize] ++ phase-2 ++ [generate-mesh, save-all]:
the phase-1 segment is exactly the trace of running `before_sync` over the
roots in declared order and holds only kernel creation calls (so no phase-2
kernel action precedes the synchronize); exactly one synchronize is issued;
the phase-2 segment holds only refinement calls; every root's construction
flag is set when phase 1 ends and every root's refinement flag is set when
`generate` returns. -/
theorem generate_two_phase (a : Arena) (ts : Sum MeshTransaction (List MeshTransaction))
    (s0 : GState) :
    ∃ pre post,
      (Geometry.generate a ts s0).trace
        = s0.trace ++ pre ++ [Event.synchronize] ++ post
          ++ [Event.generateMesh, Event.setNumberOption "Mesh.SaveAll" 1] ∧
      (Geometry.constructAll a ts s0).trace = s0.trace ++ pre ∧
      (∀ e ∈ pre, e.isConstruction = true ∧ e.isRefinement = false
        ∧ e.isSynchronize = false) ∧
      (∀ e ∈ post, e.isRefinement = true ∧ e.isSynchronize = false) ∧
      countP Event.isSynchronize (Geometry.generate a ts s0).trace
        = countP Event.isSynchronize s0.trace + 1 ∧
      (∀ t ∈ rootsOf ts, t.constructed (Geometry.constructAll a ts s0) = true) ∧
      (∀ t ∈ rootsOf ts, t.refined (Geometry.generate a ts s0) = true) := by
  obtain ⟨pre, hpre, hpreP⟩ := Geometry.constructAll_ext a ts s0
  obtain ⟨post, hpost, hpostP⟩ :=
    Geometry.refineAll_ext a ts (emit .synchronize (Geometry.constructAll a ts s0))
  have htr : (Geometry.generate a ts s0).trace
      = s0.trace ++ pre ++ [Event.synchronize] ++ post
        ++ [Event.generateMesh, Event.setNumberOption "Mesh.SaveAll" 1] := by
    simp only [Geometry.generate, emit_trace, hpost, hpre]
    simp
  refine ⟨pre, post, htr, hpre, ?_, ?_, ?_, Geometry.constructAll_constructed a ts s0, ?_⟩
  · intro e he
    exact ⟨hpreP e he, not_isRefinement_of_isConstruction (hpreP e he),
      not_isSynchronize_of_isConstruction (hpreP e he)⟩
  · intro e he
    exact ⟨hpostP e he, not_isSynchronize_of_isRefinement (hpostP e he)⟩
  · rw [htr]
    have hz1 : countP Event.isSynchronize pre = 0 :=
      countP_eq_zero (fun e he => not_isSynchronize_of_isConstruction (hpreP e he))
    have hz2 : countP Event.isSynchronize post = 0 :=
      countP_eq_zero (fun e he => not_isSynchronize_of_isRefinement (hpostP e he))
    simp only [countP] at hz1 hz2
    simp [countP_append, countP_singleton, Event.isSynchronize, countP, hz1, hz2]
  · intro t ht
    have : t.refined (Geometry.generate a ts s0)
        = t.refined (Geometry.refineAll a ts
            (emit .synchronize (Geometry.constructAll a ts s0))) := by
      cases t <;> rfl
    rw [this]
    exact Geometry.refineAll_refined a ts _ t ht

/-! ### Store-preservation facts used by the point-count argument -/

theorem Point.before_sync_lineSt (a : Arena) (i : Nat) (s : GState) :
    (Point.before_sync a i s).lineSt = s.lineSt := by
  simp only [Point.before_sync, updPoint_lineSt]
  split <;> simp

theorem Point_before_sync_loopSt (a : Arena) (i : Nat) (s : GState) :
    (Point.before_sync a i s).loopSt = s.loopSt := by
  simp only [Point.before_sync, updPoint_loopSt]
  split <;> simp

theorem Point_before_sync_surfaceSt (a : Arena) (i : Nat) (s : GState) :
    (Point.before_sync a i s).surfaceSt = s.surfaceSt := by
  simp only [Point.before_sync, updPoint_surfaceSt]
  split <;> simp

theorem Point_before_sync_pointflag (a : Arena) (i : Nat) (s : GState) (j : Nat) :
    ((Point.before_sync a i s).pointSt j).before_sync_initiated
      = ((s.pointSt j).before_sync_initiated || decide (j = i)) := by
  by_cases h : (s.pointSt i).before_sync_initiated
  · rw [Point_before_sync_noop a h]
    by_cases hj : j = i
    · subst hj; simp [h]
    · simp [hj]
  · simp only [Point.before_sync, if_neg h, updPoint_pointSt_apply]
    by_cases hj : j = i
    · subst hj; simp
    · simp [hj]

theorem Line_before_sync_loopSt (a : Arena) (i : Nat) (s : GState) :
    (Line.before_sync a i s).loopSt = s.loopSt := by
  simp only [Line.before_sync, updLine_loopSt]
  split
  · rfl
  · simp [Point_before_sync_loopSt]

theorem Line_before_sync_surfaceSt (a : Arena) (i : Nat) (s : GState) :
    (Line.before_sync a i s).surfaceSt = s.surfaceSt := by
  simp only [Line.before_sync, updLine_surfaceSt]
  split
  · rfl
  · simp [Point_before_sync_surfaceSt]

theorem Line.before_sync_lineflag (a : Arena) (i : Nat) (s : GState) (j : Nat) :
    ((Line.before_sync a i s).lineSt j).before_sync_initiated
      = ((s.lineSt j).before_sync_initiated || decide (j = i)) := by
  by_cases h : (s.lineSt i).before_sync_initiated
  · rw [Line_before_sync_noop a h]
    by_cases hj : j = i
    · subst hj; simp [h]
    · simp [hj]
  · simp only [Line.before_sync, if_neg h, updLine_lineSt_apply, Point.before_sync_lineSt]
    by_cases hj : j = i
    · subst hj; simp
    · simp [hj, Point.before_sync_lineSt]

theorem Line_before_sync_pointflag (a : Arena) (i : Nat) (s : GState) (j : Nat)
    (hcl : FlagsClosed a s) :
    ((Line.before_sync a i s).pointSt j).before_sync_initiated
      = ((s.pointSt j).before_sync_initiated || decide (j ∈ Line.pointIds a i)) := by
  by_cases h : (s.lineSt i).before_sync_initiated
  · rw [Line_before_sync_noop a h]
    by_cases hj : j ∈ Line.pointIds a i
    · simp [hcl.1 i h j hj, hj]
    · simp [hj]
  · simp only [Line.before_sync, if_neg h, updLine_pointSt, add_line_pointSt,
      Point_before_sync_pointflag, Line.pointIds, Finset.mem_insert, Finset.mem_singleton,
      Bool.decide_or, Bool.or_assoc]

/-! ### Counting point creations over the dependency graph -/

theorem mem_foldr_union {α : Type} (g : α → Finset Nat) (l : List α) (j : Nat) :
    (j ∈ l.foldr (fun x acc => g x ∪ acc) ∅) ↔ ∃ x ∈ l, j ∈ g x := by
  induction l with
  | nil => simp
  | cons x xs ih => simp [List.foldr, ih]

theorem card_filter_union (A B : Finset Nat) (p : Nat → Prop) [DecidablePred p] :
    ((A ∪ B).filter p).card
      = (A.filter p).card + (B.filter (fun j => p j ∧ j ∉ A)).card := by
  have hsplit : (A ∪ B).filter p
      = A.filter p ∪ B.filter (fun j => p j ∧ j ∉ A) := by
    ext j
    simp only [Finset.mem_filter, Finset.mem_union]
    tauto
  have hdisj : Disjoint (A.filter p) (B.filter (fun j => p j ∧ j ∉ A)) := by
    rw [Finset.disjoint_left]
    intro j hj hj'
    exact (Finset.mem_filter.1 hj').2.2 (Finset.mem_filter.1 hj).1
  rw [hsplit, Finset.card_union_of_disjoint hdisj]

theorem ConstructsPoints.comp {a : Arena} {A B : Finset Nat} {f g : GState → GState}
    (hf : ConstructsPoints a A f) (hg : ConstructsPoints a B g) :
    ConstructsPoints a (A ∪ B) (fun s => g (f s)) := by
  intro s hcl
  obtain ⟨hfF, hfC, hfCl⟩ := hf s hcl
  obtain ⟨hgF, hgC, hgCl⟩ := hg (f s) hfCl
  refine ⟨?_, ?_, hgCl⟩
  · intro j
    rw [hgF, hfF]
    by_cases hA : j ∈ A <;> by_cases hB : j ∈ B <;>
      simp [hA, hB, Finset.mem_union]
  · rw [hgC, hfC, card_filter_union]
    have : B.filter (fun j => ¬((f s).pointSt j).before_sync_initiated = true)
        = B.filter (fun j =>
            (¬(s.pointSt j).before_sync_initiated = true) ∧ j ∉ A) := by
      apply Finset.filter_congr
      intro j _
      rw [hfF]
      by_cases hA : j ∈ A <;> by_cases hs : (s.pointSt j).before_sync_initiated <;>
        simp [hA, hs]
    rw [this]
    omega

theorem ConstructsPoints.congr_fn {a : Arena} {A : Finset Nat} {f g : GState → GState}
    (hfg : ∀ s, g s = f s) (hf : ConstructsPoints a A f) : ConstructsPoints a A g := by
  intro s hcl
  rw [hfg]
  exact hf s hcl

theorem ConstructsPoints.untouched {a : Arena} {f : GState → GState}
    (hp : ∀ s, (f s).pointSt = s.pointSt)
    (hl : ∀ s, (f s).lineSt = s.lineSt)
    (hc : ∀ s, (f s).loopSt = s.loopSt)
    (hs : ∀ s, (f s).surfaceSt = s.surfaceSt)
    (hcount : ∀ s, countP Event.isAddPoint (f s).trace = countP Event.isAddPoint s.trace) :
    ConstructsPoints a ∅ f := by
  intro s hcl
  refine ⟨fun j => by simp [hp], by simp [hcount], ?_⟩
  obtain ⟨h1, h2, h3⟩ := hcl
  refine ⟨?_, ?_, ?_⟩
  · intro li hli j hj
    rw [hl] at hli
    rw [hp]
    exact h1 li hli j hj
  · intro ci hci li hli
    rw [hc] at hci
    rw [hl]
    exact h2 ci hci li hli
  · intro si hsi ci hci
    rw [hs] at hsi
    rw [hc]
    exact h3 si hsi ci hci

theorem ConstructsPoints.foldl_cp {α : Type} {a : Arena} (step : GState → α → GState)
    (pts : α → Finset Nat) (l : List α)
    (h : ∀ x ∈ l, ConstructsPoints a (pts x) (fun s => step s x)) :
    ConstructsPoints a (l.foldr (fun x acc => pts x ∪ acc) ∅)
      (fun s => l.foldl step s) := by
  induction l with
  | nil =>
      exact ConstructsPoints.untouched (fun s => rfl) (fun s => rfl) (fun s => rfl)
        (fun s => rfl) (fun s => rfl)
  | cons x xs ih =>
      exact (h x (by simp)).comp (ih (fun y hy => h y (by simp [hy])))

theorem Point_before_sync_constructs (a : Arena) (i : Nat) :
    ConstructsPoints a {i} (Point.before_sync a i) := by
  intro s hcl
  refine ⟨?_, ?_, ?_⟩
  · intro j
    rw [Point_before_sync_pointflag]
    simp [Finset.mem_singleton]
  · rw [Point_before_sync_count]
    by_cases h : (s.pointSt i).before_sync_initiated <;>
      simp [h, Finset.filter_singleton]
  · obtain ⟨h1, h2, h3⟩ := hcl
    refine ⟨?_, ?_, ?_⟩
    · intro li hli j hj
      rw [Point.before_sync_lineSt] at hli
      rw [Point_before_sync_pointflag]
      simp [h1 li hli j hj]
    · intro ci hci li hli
      rw [Point_before_sync_loopSt] at hci
      rw [Point.before_sync_lineSt]
      exact h2 ci hci li hli
    · intro si hsi ci hci
      rw [Point_before_sync_surfaceSt] at hsi
      rw [Point_before_sync_loopSt]
      exact h3 si hsi ci hci

theorem Line.before_sync_addPoint_count (a : Arena) (i : Nat) (s : GState)
    (hcl : FlagsClosed a s) :
    countP Event.isAddPoint (Line.before_sync a i s).trace
      = countP Event.isAddPoint s.trace
        + ((Line.pointIds a i).filter
            (fun j => ¬(s.pointSt j).before_sync_initiated = true)).card := by
  by_cases h : (s.lineSt i).before_sync_initiated
  · have hempty : (Line.pointIds a i).filter
        (fun j => ¬(s.pointSt j).before_sync_initiated = true) = ∅ := by
      rw [Finset.filter_eq_empty_iff]
      intro j hj
      simp [hcl.1 i h j hj]
    rw [Line_before_sync_noop a h, hempty]
    simp
  · have hc1 := Point_before_sync_count a (a.lines.getD i dfltLine).start s
    have hc2 := Point_before_sync_count a (a.lines.getD i dfltLine).endp
      (Point.before_sync a (a.lines.getD i dfltLine).start s)
    have hf2 := Point_before_sync_pointflag a (a.lines.getD i dfltLine).start s
      (a.lines.getD i dfltLine).endp
    simp only [Line.before_sync, if_neg h, updLine_trace, add_line_trace, countP_append,
      hc2, hf2, hc1]
    have hsingleton : ∀ t1 t2 t3 : Nat,
        countP Event.isAddPoint [Event.addLine t1 t2 t3] = 0 := by
      intro t1 t2 t3
      simp [countP, Event.isAddPoint]
    rw [hsingleton]
    have hsplit : Line.pointIds a i
        = {(a.lines.getD i dfltLine).start} ∪ {(a.lines.getD i dfltLine).endp} := by
      rw [Line.pointIds, Finset.insert_eq]
    rw [hsplit, card_filter_union]
    set u := (a.lines.getD i dfltLine).start with hu
    set v := (a.lines.getD i dfltLine).endp with hv
    rw [Finset.filter_singleton, Finset.filter_singleton]
    cases h1 : (s.pointSt u).before_sync_initiated <;>
      cases h2 : (s.pointSt v).before_sync_initiated <;>
      by_cases hse : v = u <;>
      simp only [h1, h2, hse, Finset.mem_singleton, decide_True, decide_False,
        Bool.or_true, Bool.or_false, Bool.true_or, Bool.false_or] <;>
      simp [hse] <;> omega

theorem Line.before_sync_closed (a : Arena) (i : Nat) (s : GState)
    (hcl : FlagsClosed a s) : FlagsClosed a (Line.before_sync a i s) := by
  obtain ⟨h1, h2, h3⟩ := hcl
  refine ⟨?_, ?_, ?_⟩
  · intro li hli j hj
    rw [Line.before_sync_lineflag] at hli
    rw [Line_before_sync_pointflag a i s j ⟨h1, h2, h3⟩]
    rw [Bool.or_eq_true] at hli
    rcases hli with hold | hnew
    · simp [h1 li hold j hj]
    · have : li = i := by simpa using hnew
      subst this
      simp [hj]
  · intro ci hci li hli
    rw [Line_before_sync_loopSt] at hci
    rw [Line.before_sync_lineflag]
    simp [h2 ci hci li hli]
  · intro si hsi ci hci
    rw [Line_before_sync_surfaceSt] at hsi
    rw [Line_before_sync_loopSt]
    exact h3 si hsi ci hci

theorem Line_before_sync_constructs (a : Arena) (i : Nat) :
    ConstructsPoints a (Line.pointIds a i) (Line.before_sync a i) := by
  intro s hcl
  exact ⟨fun j => Line_before_sync_pointflag a i s j hcl,
    Line.before_sync_addPoint_count a i s hcl,
    Line.before_sync_closed a i s hcl⟩

theorem ConstructsPoints.congr_set {a : Arena} {A B : Finset Nat} {f : GState → GState}
    (hAB : B = A) (hf : ConstructsPoints a A f) : ConstructsPoints a B f := by
  rw [hAB]
  exact hf

theorem loopLineStep_constructs (a : Arena) (ci li : Nat) :
    ConstructsPoints a (Line.pointIds a li) (fun s => loopLineStep a ci s li) := by
  have hg : ConstructsPoints a ∅
      (fun s' : GState => appendLoopLineTag ci ((s'.lineSt li).tag.getD 0) s') :=
    ConstructsPoints.untouched (fun s => rfl) (fun s => rfl) (fun s => rfl) (fun s => rfl)
      (fun s => rfl)
  have := (Line_before_sync_constructs a li).comp hg
  rw [Finset.union_empty] at this
  exact this.congr_fn (fun s => rfl)

theorem fieldsBefore_foldl_pointSt (l : List Nat) (s : GState) :
    (l.foldl fieldsBeforeStep s).pointSt = s.pointSt := by
  induction l generalizing s with
  | nil => rfl
  | cons x xs ih => simp [List.foldl, ih, fieldsBeforeStep, Field.before_sync]

theorem fieldsBefore_foldl_lineSt (l : List Nat) (s : GState) :
    (l.foldl fieldsBeforeStep s).lineSt = s.lineSt := by
  induction l generalizing s with
  | nil => rfl
  | cons x xs ih => simp [List.foldl, ih, fieldsBeforeStep, Field.before_sync]

theorem fieldsBefore_foldl_loopSt (l : List Nat) (s : GState) :
    (l.foldl fieldsBeforeStep s).loopSt = s.loopSt := by
  induction l generalizing s with
  | nil => rfl
  | cons x xs ih => simp [List.foldl, ih, fieldsBeforeStep, Field.before_sync]

theorem fieldsBefore_foldl_surfaceSt (l : List Nat) (s : GState) :
    (l.foldl fieldsBeforeStep s).surfaceSt = s.surfaceSt := by
  induction l generalizing s with
  | nil => rfl
  | cons x xs ih => simp [List.foldl, ih, fieldsBeforeStep, Field.before_sync]

theorem loopLineStep_loopSt (a : Arena) (ci : Nat) (s : GState) (li : Nat) :
    (loopLineStep a ci s li).loopSt = s.loopSt := by
  simp [loopLineStep, Line_before_sync_loopSt]

theorem loopLineStep_surfaceSt (a : Arena) (ci : Nat) (s : GState) (li : Nat) :
    (loopLineStep a ci s li).surfaceSt = s.surfaceSt := by
  simp [loopLineStep, Line_before_sync_surfaceSt]

theorem loopLine_foldl_loopSt (a : Arena) (ci : Nat) (l : List Nat) (s : GState) :
    (l.foldl (loopLineStep a ci) s).loopSt = s.loopSt := by
  induction l generalizing s with
  | nil => rfl
  | cons x xs ih => simp [List.foldl, ih, loopLineStep_loopSt]

theorem loopLine_foldl_surfaceSt (a : Arena) (ci : Nat) (l : List Nat) (s : GState) :
    (l.foldl (loopLineStep a ci) s).surfaceSt = s.surfaceSt := by
  induction l generalizing s with
  | nil => rfl
  | cons x xs ih => simp [List.foldl, ih, loopLineStep_surfaceSt]

theorem loopLineStep_flagLe (a : Arena) (ci : Nat) (s : GState) (li : Nat) :
    FlagLe s (loopLineStep a ci s li) :=
  (Line_before_sync_flagLe a li s).trans_flag (FlagLe.same_states rfl rfl rfl rfl rfl)

theorem loopLine_foldl_lineflags (a : Arena) (ci : Nat) (l : List Nat) :
    ∀ s : GState, ∀ li ∈ l,
      ((l.foldl (loopLineStep a ci) s).lineSt li).before_sync_initiated = true := by
  induction l with
  | nil => intro s li h; simp at h
  | cons x xs ih =>
      intro s li h
      rcases List.mem_cons.1 h with rfl | hmem
      · refine (FlagLe.foldlF (loopLineStep a ci) xs
          (fun y _ s' => loopLineStep_flagLe a ci s' y) (loopLineStep a ci s li)).lb li ?_
        simp only [loopLineStep, appendLoopLineTag_lineSt]
        exact Line_before_sync_flag a li s
      · exact ih (loopLineStep a ci s x) li hmem

theorem mem_loop_pointIds {a : Arena} {ci j : Nat} (hj : j ∈ CurveLoop.pointIds a ci) :
    ∃ li ∈ (a.loops.getD ci dfltLoop).lines, j ∈ Line.pointIds a li := by
  rw [CurveLoop.pointIds] at hj
  exact (mem_foldr_union _ _ _).1 hj

theorem flagged_of_mem_loop_pointIds {a : Arena} {ci j : Nat} {s : GState}
    (hcl : FlagsClosed a s) (h : (s.loopSt ci).before_sync_initiated = true)
    (hj : j ∈ CurveLoop.pointIds a ci) : (s.pointSt j).before_sync_initiated = true := by
  obtain ⟨li, hli, hjli⟩ := mem_loop_pointIds hj
  exact hcl.1 li (hcl.2.1 ci h li hli) j hjli

theorem CurveLoop_before_sync_constructs (a : Arena) (ci : Nat) :
    ConstructsPoints a (CurveLoop.pointIds a ci) (CurveLoop.before_sync a ci) := by
  intro s hcl
  by_cases h : (s.loopSt ci).before_sync_initiated
  · rw [CurveLoop_before_sync_noop a h]
    refine ⟨?_, ?_, hcl⟩
    · intro j
      by_cases hj : j ∈ CurveLoop.pointIds a ci
      · simp [flagged_of_mem_loop_pointIds hcl h hj, hj]
      · simp [hj]
    · have hempty : (CurveLoop.pointIds a ci).filter
          (fun j => ¬(s.pointSt j).before_sync_initiated = true) = ∅ := by
        rw [Finset.filter_eq_empty_iff]
        intro j hj
        simp [flagged_of_mem_loop_pointIds hcl h hj]
      rw [hempty]
      simp
  · obtain ⟨hF, hC, hCl⟩ := (ConstructsPoints.foldl_cp (loopLineStep a ci)
      (fun li => Line.pointIds a li) (a.loops.getD ci dfltLoop).lines
      (fun li _ => loopLineStep_constructs a ci li)) s hcl
    have hpt : (CurveLoop.before_sync a ci s).pointSt
        = ((a.loops.getD ci dfltLoop).lines.foldl (loopLineStep a ci) s).pointSt := by
      simp only [CurveLoop.before_sync, if_neg h, updLoop_pointSt,
        fieldsBefore_foldl_pointSt, add_curve_loop_pointSt]
    have hln : (CurveLoop.before_sync a ci s).lineSt
        = ((a.loops.getD ci dfltLoop).lines.foldl (loopLineStep a ci) s).lineSt := by
      simp only [CurveLoop.before_sync, if_neg h, updLoop_lineSt,
        fieldsBefore_foldl_lineSt, add_curve_loop_lineSt]
    have htrace : (CurveLoop.before_sync a ci s).trace
        = ((a.loops.getD ci dfltLoop).lines.foldl (loopLineStep a ci) s).trace
          ++ [Event.addCurveLoop
              (((a.loops.getD ci dfltLoop).lines.foldl (loopLineStep a ci) s).loopLineTags ci)
              (((a.loops.getD ci dfltLoop).lines.foldl (loopLineStep a ci) s).nextTag)] := by
      simp only [CurveLoop.before_sync, if_neg h, updLoop_trace]
      rw [fieldsBefore_foldl_trace]
      simp
    have hloopflag : ∀ j, ((CurveLoop.before_sync a ci s).loopSt j).before_sync_initiated
        = ((s.loopSt j).before_sync_initiated || decide (j = ci)) := by
      intro j
      by_cases hj : j = ci
      · subst hj
        simp only [CurveLoop.before_sync, if_neg h, updLoop_loopSt_apply, if_pos rfl]
        simp
      · simp only [CurveLoop.before_sync, if_neg h]
        rw [updLoop_loopSt_apply, if_neg hj]
        rw [fieldsBefore_foldl_loopSt]
        rw [updLoop_loopSt_apply, if_neg hj]
        simp [loopLine_foldl_loopSt, hj]
    have hsurf : (CurveLoop.before_sync a ci s).surfaceSt = s.surfaceSt := by
      simp only [CurveLoop.before_sync, if_neg h, updLoop_surfaceSt,
        fieldsBefore_foldl_surfaceSt, add_curve_loop_surfaceSt, loopLine_foldl_surfaceSt]
    refine ⟨?_, ?_, ?_, ?_, ?_⟩
    · intro j
      rw [hpt]
      exact hF j
    · rw [htrace, countP_append]
      have : countP Event.isAddPoint [Event.addCurveLoop
          (((a.loops.getD ci dfltLoop).lines.foldl (loopLineStep a ci) s).loopLineTags ci)
          (((a.loops.getD ci dfltLoop).lines.foldl (loopLineStep a ci) s).nextTag)] = 0 := by
        simp [countP, Event.isAddPoint]
      rw [this, hC]
      rfl
    · intro li hli j hj
      rw [hln] at hli
      rw [hpt]
      exact hCl.1 li hli j hj
    · intro cj hcj li hli
      rw [hloopflag, Bool.or_eq_true] at hcj
      rw [hln]
      rcases hcj with hold | hnew
      · have : ((s.loopSt cj).before_sync_initiated) = true := hold
        have hs1loop : (((a.loops.getD ci dfltLoop).lines.foldl (loopLineStep a ci)
            s).loopSt cj).before_sync_initiated = true := by
          rw [loopLine_foldl_loopSt]
          exact this
        exact hCl.2.1 cj hs1loop li hli
      · have : cj = ci := by simpa using hnew
        subst this
        exact loopLine_foldl_lineflags a cj _ s li hli
    · intro si hsi cj hcj
      rw [hsurf] at hsi
      rw [hloopflag]
      have hs1surf : (((a.loops.getD ci dfltLoop).lines.foldl (loopLineStep a ci)
          s).surfaceSt si).before_sync_initiated = true := by
        rw [loopLine_foldl_surfaceSt]
        exact hsi
      have := hCl.2.2 si hs1surf cj hcj
      rw [loopLine_foldl_loopSt] at this
      simp [this]

theorem CurveLoop_before_sync_surfaceSt (a : Arena) (ci : Nat) (s : GState) :
    (CurveLoop.before_sync a ci s).surfaceSt = s.surfaceSt := by
  by_cases h : (s.loopSt ci).before_sync_initiated
  · rw [CurveLoop_before_sync_noop a h]
  · simp only [CurveLoop.before_sync, if_neg h, updLoop_surfaceSt,
      fieldsBefore_foldl_surfaceSt, add_curve_loop_surfaceSt, loopLine_foldl_surfaceSt]

theorem loops_foldl_surfaceSt (a : Arena) (l : List Nat) (s : GState) :
    (l.foldl (fun s' ci => CurveLoop.before_sync a ci s') s).surfaceSt = s.surfaceSt := by
  induction l generalizing s with
  | nil => rfl
  | cons x xs ih => simp [List.foldl, ih, CurveLoop_before_sync_surfaceSt]

theorem loops_foldl_loopflags (a : Arena) (l : List Nat) :
    ∀ s : GState, ∀ ci ∈ l,
      (((l.foldl (fun s' ci' => CurveLoop.before_sync a ci' s') s).loopSt ci)).before_sync_initiated
        = true := by
  induction l with
  | nil => intro s ci h; simp at h
  | cons x xs ih =>
      intro s ci h
      rcases List.mem_cons.1 h with rfl | hmem
      · exact (FlagLe.foldlF (fun s' ci' => CurveLoop.before_sync a ci' s') xs
          (fun y _ s' => CurveLoop_before_sync_flagLe a y s')
          (CurveLoop.before_sync a ci s)).cb ci (CurveLoop_before_sync_flag a ci s)
      · exact ih (CurveLoop.before_sync a x s) ci hmem

theorem mem_surface_pointIds {a : Arena} {si j : Nat}
    (hj : j ∈ PlaneSurface.pointIds a si) :
    ∃ ci ∈ (a.surfaces.getD si dfltSurface).outlines
        ++ (a.surfaces.getD si dfltSurface).holes, j ∈ CurveLoop.pointIds a ci := by
  rw [PlaneSurface.pointIds] at hj
  exact (mem_foldr_union _ _ _).1 hj

theorem flagged_of_mem_surface_pointIds {a : Arena} {si j : Nat} {s : GState}
    (hcl : FlagsClosed a s) (h : (s.surfaceSt si).before_sync_initiated = true)
    (hj : j ∈ PlaneSurface.pointIds a si) :
    (s.pointSt j).before_sync_initiated = true := by
  obtain ⟨ci, hci, hjci⟩ := mem_surface_pointIds hj
  exact flagged_of_mem_loop_pointIds hcl (hcl.2.2 si h ci hci) hjci

theorem PlaneSurface_before_sync_constructs (a : Arena) (si : Nat) :
    ConstructsPoints a (PlaneSurface.pointIds a si) (PlaneSurface.before_sync a si) := by
  intro s hcl
  by_cases h : (s.surfaceSt si).before_sync_initiated
  · rw [PlaneSurface_before_sync_noop a h]
    refine ⟨?_, ?_, hcl⟩
    · intro j
      by_cases hj : j ∈ PlaneSurface.pointIds a si
      · simp [flagged_of_mem_surface_pointIds hcl h hj, hj]
      · simp [hj]
    · have hempty : (PlaneSurface.pointIds a si).filter
          (fun j => ¬(s.pointSt j).before_sync_initiated = true) = ∅ := by
        rw [Finset.filter_eq_empty_iff]
        intro j hj
        simp [flagged_of_mem_surface_pointIds hcl h hj]
      rw [hempty]
      simp
  · obtain ⟨hF, hC, hCl⟩ := (ConstructsPoints.foldl_cp
      (fun s' ci => CurveLoop.before_sync a ci s') (fun ci => CurveLoop.pointIds a ci)
      ((a.surfaces.getD si dfltSurface).outlines ++ (a.surfaces.getD si dfltSurface).holes)
      (fun ci _ => (CurveLoop_before_sync_constructs a ci).congr_fn (fun s' => rfl))) s hcl
    have hpt : (PlaneSurface.before_sync a si s).pointSt
        = (((a.surfaces.getD si dfltSurface).outlines
            ++ (a.surfaces.getD si dfltSurface).holes).foldl
              (fun s' ci => CurveLoop.before_sync a ci s') s).pointSt := by
      simp only [PlaneSurface.before_sync, if_neg h, updSurface_pointSt,
        add_plane_surface_pointSt, surfaceLoop_foldl_fst]
    have hln : (PlaneSurface.before_sync a si s).lineSt
        = (((a.surfaces.getD si dfltSurface).outlines
            ++ (a.surfaces.getD si dfltSurface).holes).foldl
              (fun s' ci => CurveLoop.before_sync a ci s') s).lineSt := by
      simp only [PlaneSurface.before_sync, if_neg h, updSurface_lineSt,
        add_plane_surface_lineSt, surfaceLoop_foldl_fst]
    have hlp : (PlaneSurface.before_sync a si s).loopSt
        = (((a.surfaces.getD si dfltSurface).outlines
            ++ (a.surfaces.getD si dfltSurface).holes).foldl
              (fun s' ci => CurveLoop.before_sync a ci s') s).loopSt := by
      simp only [PlaneSurface.before_sync, if_neg h, updSurface_loopSt,
        add_plane_surface_loopSt, surfaceLoop_foldl_fst]
    have hsurfflag : ∀ j, ((PlaneSurface.before_sync a si s).surfaceSt j).before_sync_initiated
        = ((s.surfaceSt j).before_sync_initiated || decide (j = si)) := by
      intro j
      by_cases hj : j = si
      · subst hj
        simp only [PlaneSurface.before_sync, if_neg h, updSurface_surfaceSt_apply, if_pos rfl]
        simp
      · simp only [PlaneSurface.before_sync, if_neg h]
        rw [updSurface_surfaceSt_apply, if_neg hj]
        rw [updSurface_surfaceSt_apply, if_neg hj]
        simp only [add_plane_surface_surfaceSt, surfaceLoop_foldl_fst, loops_foldl_surfaceSt]
        simp [hj]
    have htrace : countP Event.isAddPoint (PlaneSurface.before_sync a si s).trace
        = countP Event.isAddPoint (((a.surfaces.getD si dfltSurface).outlines
            ++ (a.surfaces.getD si dfltSurface).holes).foldl
              (fun s' ci => CurveLoop.before_sync a ci s') s).trace := by
      simp only [PlaneSurface.before_sync, if_neg h, updSurface_trace,
        add_plane_surface_trace, surfaceLoop_foldl_fst, countP_append]
      simp [countP, Event.isAddPoint]
    refine ⟨?_, ?_, ?_, ?_, ?_⟩
    · intro j
      rw [hpt]
      exact hF j
    · rw [htrace, hC]
      rfl
    · intro li hli j hj
      rw [hln] at hli
      rw [hpt]
      exact hCl.1 li hli j hj
    · intro cj hcj li hli
      rw [hlp] at hcj
      rw [hln]
      exact hCl.2.1 cj hcj li hli
    · intro sj hsj cj hcj
      rw [hsurfflag, Bool.or_eq_true] at hsj
      rw [hlp]
      rcases hsj with hold | hnew
      · have hs1surf : ((((a.surfaces.getD si dfltSurface).outlines
            ++ (a.surfaces.getD si dfltSurface).holes).foldl
              (fun s' ci => CurveLoop.before_sync a ci s') s).surfaceSt sj).before_sync_initiated
            = true := by
          rw [loops_foldl_surfaceSt]
          exact hold
        exact hCl.2.2 sj hs1surf cj hcj
      · have : sj = si := by simpa using hnew
        subst this
        exact loops_foldl_loopflags a _ s cj hcj

theorem MeshTransaction_before_sync_constructs (a : Arena) (t : MeshTransaction) :
    ConstructsPoints a (t.pointIds a) (MeshTransaction.before_sync a t) := by
  cases t with
  | point i => exact Point_before_sync_constructs a i
  | line i => exact Line_before_sync_constructs a i
  | curveLoop i => exact CurveLoop_before_sync_constructs a i
  | planeSurface i => exact PlaneSurface_before_sync_constructs a i

theorem Geometry.constructAll_constructs (a : Arena)
    (ts : Sum MeshTransaction (List MeshTransaction)) :
    ConstructsPoints a (rootsPointIds a ts) (Geometry.constructAll a ts) := by
  cases ts with
  | inl t =>
      refine ConstructsPoints.congr_set ?_
        ((MeshTransaction_before_sync_constructs a t).congr_fn (fun s => rfl))
      show rootsPointIds a (.inl t) = t.pointIds a
      simp [rootsPointIds, rootsOf]
  | inr l =>
      exact ((ConstructsPoints.foldl_cp (fun s' t => MeshTransaction.before_sync a t s')
        (fun t => t.pointIds a) l
        (fun t _ => (MeshTransaction_before_sync_constructs a t).congr_fn
          (fun s => rfl))).congr_fn (fun s => rfl))

theorem initState_closed (a : Arena) : FlagsClosed a initState := by
  refine ⟨?_, ?_, ?_⟩ <;> intro i hi <;> simp [initState] at hi

/-- C3: running `Geometry.generate` from a fresh session issues exactly one
kernel point-creation call per distinct `Point` instance reachable from the
roots — `(rootsPointIds a ts).card` counts instances (arena indices), so two
distinct `Point` objects with identical coordinates are counted (and
created) separately, and a `Point` shared by many `Line`s is created once. -/
theorem point_creation_count (a : Arena) (ts : Sum MeshTransaction (List MeshTransaction)) :
    countP Event.isAddPoint (Geometry.generate a ts initState).trace
      = (rootsPointIds a ts).card := by
  obtain ⟨hF, hC, hCl⟩ := Geometry.constructAll_constructs a ts initState (initState_closed a)
  have hfull : (rootsPointIds a ts).filter
      (fun j => ¬(initState.pointSt j).before_sync_initiated = true)
      = rootsPointIds a ts := by
    rw [Finset.filter_eq_self]
    intro j _
    simp [initState]
  have hre := countP_eq_of_traceExt (q := Event.isAddPoint)
    (Geometry.refineAll_ext a ts (emit .synchronize (Geometry.constructAll a ts initState)))
    (fun e he => not_isAddPoint_of_isRefinement he)
  simp only [Geometry.generate, emit_trace, countP_append]
  rw [hre]
  simp only [emit_trace, countP_append]
  rw [hC, hfull]
  simp [countP, Event.isAddPoint, initState]

/-- C8: refining a `TransfiniteLine` (`transfinite = some td`, `cell_count ≥ 1`)
whose refinement flag is not yet set issues exactly one kernel
transfinite-curve call, with node count `cell_count + 1`, the line's grading
type and grading coefficient. -/
theorem transfinite_line_subdivision (a : Arena) (i : Nat) (s : GState)
    (td : TransfiniteData)
    (htd : (a.lines.getD i dfltLine).transfinite = some td)
    (hcc : 1 ≤ td.cell_count)
    (hflag : (s.lineSt i).after_sync_initiated = false) :
    (Line.after_sync a i s).trace
      = s.trace ++ [Event.setTransfiniteCurve ((s.lineSt i).tag.getD 0)
          (td.cell_count + 1) td.mesh_type td.coeff] ∧
    countP Event.isSetTransfiniteCurve (Line.after_sync a i s).trace
      = countP Event.isSetTransfiniteCurve s.trace + 1 := by
  have hneg : ¬((s.lineSt i).after_sync_initiated = true) := by simp [hflag]
  constructor
  · simp only [Line.after_sync, htd, if_neg hneg, updLine_trace, emit_trace]
  · simp only [Line.after_sync, htd, if_neg hneg, updLine_trace, emit_trace, countP_append]
    simp [countP, Event.isSetTransfiniteCurve]

/-- Witness for `transfinite_line_subdivision`: a constructed
`TransfiniteLine` with `cell_count = 4` gets one subdivision constraint with
node count 5. -/
theorem transfinite_line_subdivision_witness :
    ((arenaTL.lines.getD 0 dfltLine).transfinite
        = some { cell_count := 4, mesh_type := "Progression", coeff := 1 } ∧
      (1 : Int) ≤ 4 ∧
      ((Line.before_sync arenaTL 0 initState).lineSt 0).after_sync_initiated = false) ∧
    ((Line.after_sync arenaTL 0 (Line.before_sync arenaTL 0 initState)).trace
        = (Line.before_sync arenaTL 0 initState).trace
          ++ [Event.setTransfiniteCurve 3 5 "Progression" 1] ∧
      countP Event.isSetTransfiniteCurve
          (Line.after_sync arenaTL 0 (Line.before_sync arenaTL 0 initState)).trace
        = countP Event.isSetTransfiniteCurve
            (Line.before_sync arenaTL 0 initState).trace + 1) :=
  ⟨⟨by decide, by decide, by decide⟩,
    transfinite_line_subdivision arenaTL 0 (Line.before_sync arenaTL 0 initState)
      { cell_count := 4, mesh_type := "Progression", coeff := 1 }
      (by decide) (by decide) (by decide)⟩

/-- C7 counterexample: re-opening an already-open session does not fail with
any lifecycle error — the second `__enter__` simply delegates a second
`gmsh.initialize()` to the kernel; likewise `write` on a never-opened
session delegates `gmsh.write` unconditionally.  No lifecycle check exists
in the code. -/
theorem lifecycle_counterexample :
    (Geometry.enter (Geometry.enter initState)).trace
      = [Event.initGmsh, Event.initGmsh] ∧
    (Geometry.write "mesh.msh" initState).trace = [Event.gmshWrite "mesh.msh"] :=
  ⟨rfl, rfl⟩

/-- C7 amended: `Geometry.__enter__`, `Geometry.write` and
`Geometry.__exit__` are unguarded: in every state — open, unopened or
already open — they delegate directly to the kernel
(`initialize`/`write`/`finalize`) and raise no local lifecycle error. -/
theorem lifecycle_delegates_to_kernel (s : GState) (filename : String) :
    (Geometry.enter s).trace = s.trace ++ [Event.initGmsh] ∧
    (Geometry.write filename s).trace = s.trace ++ [Event.gmshWrite filename] ∧
    (Geometry.exitSession s).trace = s.trace ++ [Event.finalizeGmsh] :=
  ⟨rfl, rfl, rfl⟩

/-! ### Label aggregation in `CurveLoop.after_sync` -/

theorem Line.after_sync_ext_stc (a : Arena) (i : Nat) (s : GState) :
    TraceExt Event.isSetTransfiniteCurve s (Line.after_sync a i s) := by
  rcases htf : (a.lines.getD i dfltLine).transfinite with _ | td
  · exact .of_trace_eq (by simp only [Line.after_sync, htf, updLine_trace])
  · by_cases h : (s.lineSt i).after_sync_initiated
    · exact .of_trace_eq (by simp only [Line.after_sync, htf, if_pos h, updLine_trace])
    · exact (TraceExt.emit (.setTransfiniteCurve ((s.lineSt i).tag.getD 0)
          (td.cell_count + 1) td.mesh_type td.coeff) s
          (by simp [Event.isSetTransfiniteCurve])).congr
        (by simp only [Line.after_sync, htf, if_neg h, updLine_trace])

theorem Line.after_sync_nextTag (a : Arena) (i : Nat) (s : GState) :
    (Line.after_sync a i s).nextTag = s.nextTag := by
  rcases htf : (a.lines.getD i dfltLine).transfinite with _ | td <;>
    simp only [Line.after_sync, htf, updLine_nextTag] <;> split <;> simp

theorem Line.after_sync_lineSt_tag (a : Arena) (i : Nat) (s : GState) (j : Nat) :
    ((Line.after_sync a i s).lineSt j).tag = ((s.lineSt j).tag) := by
  have hcore : ∀ s' : GState, ((updLine i EntState.markAfter s').lineSt j).tag
      = (s'.lineSt j).tag := by
    intro s'
    rw [updLine_lineSt_apply]
    split <;> simp_all
  rcases htf : (a.lines.getD i dfltLine).transfinite with _ | td
  · simp only [Line.after_sync, htf]
    exact hcore s
  · simp only [Line.after_sync, htf]
    split
    · exact hcore s
    · rw [hcore]
      simp

theorem Line.after_sync_lineflag_after (a : Arena) (i : Nat) (s : GState) (j : Nat) :
    ((Line.after_sync a i s).lineSt j).after_sync_initiated
      = ((s.lineSt j).after_sync_initiated || decide (j = i)) := by
  have hcore : ∀ s' : GState, (s'.lineSt j).after_sync_initiated
        = (s.lineSt j).after_sync_initiated →
      ((updLine i EntState.markAfter s').lineSt j).after_sync_initiated
        = ((s.lineSt j).after_sync_initiated || decide (j = i)) := by
    intro s' hs'
    rw [updLine_lineSt_apply]
    by_cases hj : j = i
    · subst hj
      simp [hs']
    · simp [hj, hs']
  rcases htf : (a.lines.getD i dfltLine).transfinite with _ | td
  · simp only [Line.after_sync, htf]
    exact hcore s rfl
  · simp only [Line.after_sync, htf]
    split
    · exact hcore s rfl
    · exact hcore _ (by simp)

theorem fieldsAfter_foldl_lineSt (a : Arena) (ci : Nat) (l : List Nat) (s : GState) :
    (l.foldl (fieldsAfterStep a ci) s).lineSt = s.lineSt := by
  induction l generalizing s with
  | nil => rfl
  | cons x xs ih =>
      rw [List.foldl_cons, ih]
      show (fieldsAfterStep a ci s x).lineSt = s.lineSt
      simp only [fieldsAfterStep, Field.after_sync, BoundaryLayer.after_sync, updField_lineSt]
      split <;> simp

theorem not_isAddPhysicalGroup_of_stc {e : Event} (h : e.isSetTransfiniteCurve = true) :
    e.isAddPhysicalGroup = false := by
  cases e <;> simp_all [Event.isSetTransfiniteCurve, Event.isAddPhysicalGroup]

theorem not_isAddPhysicalGroup_of_fieldEvent {e : Event} (h : e.isFieldEvent = true) :
    e.isAddPhysicalGroup = false := by
  cases e <;> simp_all [Event.isFieldEvent, Event.isAddPhysicalGroup]

/-- C4: refining a `CurveLoop` whose four lines carry the labels
`"A"`, `"A"`, `"B"`, `None` creates exactly two physical groups at curve
dimension — one holding the two `"A"`-labelled line tags and named `"A"`,
one holding the `"B"`-labelled line tag and named `"B"`, and none for the
unlabelled line — and only after every line of the loop has been refined
(the group events follow all line-refinement events, and every line's
refinement flag is set). -/
theorem curveloop_label_aggregation (a : Arena) (ci : Nat) (s : GState)
    (l0 l1 l2 l3 : Nat)
    (hlines : (a.loops.getD ci dfltLoop).lines = [l0, l1, l2, l3])
    (hL0 : (a.lines.getD l0 dfltLine).label = some "A")
    (hL1 : (a.lines.getD l1 dfltLine).label = some "A")
    (hL2 : (a.lines.getD l2 dfltLine).label = some "B")
    (hL3 : (a.lines.getD l3 dfltLine).label = none)
    (hflag : (s.loopSt ci).after_sync_initiated = false) :
    ∃ dLines dFields : List Event,
      (CurveLoop.after_sync a ci s).trace
        = s.trace ++ dLines
          ++ [Event.addPhysicalGroup 1
                [(s.lineSt l0).tag.getD 0, (s.lineSt l1).tag.getD 0] s.nextTag,
              Event.setPhysicalName 1 s.nextTag "A",
              Event.addPhysicalGroup 1 [(s.lineSt l2).tag.getD 0] (s.nextTag + 1),
              Event.setPhysicalName 1 (s.nextTag + 1) "B"]
          ++ dFields ∧
      (∀ e ∈ dLines, e.isSetTransfiniteCurve = true) ∧
      (∀ e ∈ dFields, e.isFieldEvent = true) ∧
      countP Event.isAddPhysicalGroup (CurveLoop.after_sync a ci s).trace
        = countP Event.isAddPhysicalGroup s.trace + 2 ∧
      (∀ li ∈ [l0, l1, l2, l3],
        ((CurveLoop.after_sync a ci s).lineSt li).after_sync_initiated = true) := by
  have hneg : ¬((s.loopSt ci).after_sync_initiated = true) := by simp [hflag]
  have hfold : (a.loops.getD ci dfltLoop).lines.foldl (loopRefineStep a) ([], s)
      = ([("A", [(s.lineSt l0).tag.getD 0, (s.lineSt l1).tag.getD 0]),
          ("B", [(s.lineSt l2).tag.getD 0])],
         Line.after_sync a l3 (Line.after_sync a l2
           (Line.after_sync a l1 (Line.after_sync a l0 s)))) := by
    rw [hlines]
    simp only [List.foldl_cons, List.foldl_nil, loopRefineStep, hL0, hL1, hL2, hL3,
      Line.after_sync_lineSt_tag]
    simp [insertGroup]
  have hext : TraceExt Event.isSetTransfiniteCurve s
      (Line.after_sync a l3 (Line.after_sync a l2
        (Line.after_sync a l1 (Line.after_sync a l0 s)))) :=
    ((((Line.after_sync_ext_stc a l0 s).trans
      (Line.after_sync_ext_stc a l1 _)).trans
        (Line.after_sync_ext_stc a l2 _)).trans
          (Line.after_sync_ext_stc a l3 _))
  obtain ⟨dLines, hdt, hdm⟩ := hext
  have hnt : (Line.after_sync a l3 (Line.after_sync a l2
      (Line.after_sync a l1 (Line.after_sync a l0 s)))).nextTag = s.nextTag := by
    simp [Line.after_sync_nextTag]
  obtain ⟨dFields, hft, hfm⟩ := TraceExt.foldl (fieldsAfterStep a ci)
    (a.loops.getD ci dfltLoop).fields
    (fun fi _ s' => (BoundaryLayer_after_sync_ext a fi ci s').congr rfl)
    ([("A", [(s.lineSt l0).tag.getD 0, (s.lineSt l1).tag.getD 0]),
      ("B", [(s.lineSt l2).tag.getD 0])].foldl groupStep
        (Line.after_sync a l3 (Line.after_sync a l2
          (Line.after_sync a l1 (Line.after_sync a l0 s)))))
  have hgrptrace : (([("A", [(s.lineSt l0).tag.getD 0, (s.lineSt l1).tag.getD 0]),
      ("B", [(s.lineSt l2).tag.getD 0])].foldl groupStep
        (Line.after_sync a l3 (Line.after_sync a l2
          (Line.after_sync a l1 (Line.after_sync a l0 s)))))).trace
      = s.trace ++ dLines
        ++ [Event.addPhysicalGroup 1
              [(s.lineSt l0).tag.getD 0, (s.lineSt l1).tag.getD 0] s.nextTag,
            Event.setPhysicalName 1 s.nextTag "A",
            Event.addPhysicalGroup 1 [(s.lineSt l2).tag.getD 0] (s.nextTag + 1),
            Event.setPhysicalName 1 (s.nextTag + 1) "B"] := by
    simp only [List.foldl_cons, List.foldl_nil, groupStep, emit_trace, emit_nextTag,
      add_physical_group_trace, add_physical_group_nextTag, hnt, hdt]
    simp [List.append_assoc]
  have htrace : (CurveLoop.after_sync a ci s).trace
      = s.trace ++ dLines
        ++ [Event.addPhysicalGroup 1
              [(s.lineSt l0).tag.getD 0, (s.lineSt l1).tag.getD 0] s.nextTag,
            Event.setPhysicalName 1 s.nextTag "A",
            Event.addPhysicalGroup 1 [(s.lineSt l2).tag.getD 0] (s.nextTag + 1),
            Event.setPhysicalName 1 (s.nextTag + 1) "B"]
        ++ dFields := by
    simp only [CurveLoop.after_sync, if_neg hneg, updLoop_trace, hfold]
    rw [hft, hgrptrace]
  refine ⟨dLines, dFields, htrace, hdm, hfm, ?_, ?_⟩
  · rw [htrace]
    have hz1 : countP Event.isAddPhysicalGroup dLines = 0 :=
      countP_eq_zero (fun e he => not_isAddPhysicalGroup_of_stc (hdm e he))
    have hz2 : countP Event.isAddPhysicalGroup dFields = 0 :=
      countP_eq_zero (fun e he => not_isAddPhysicalGroup_of_fieldEvent (hfm e he))
    simp only [countP_append, hz1, hz2]
    simp [countP, Event.isAddPhysicalGroup]
  · have hfinallines : (CurveLoop.after_sync a ci s).lineSt
        = (Line.after_sync a l3 (Line.after_sync a l2
            (Line.after_sync a l1 (Line.after_sync a l0 s)))).lineSt := by
      simp only [CurveLoop.after_sync, if_neg hneg, updLoop_lineSt, hfold,
        fieldsAfter_foldl_lineSt]
      rfl
    intro li hli
    rw [hfinallines]
    simp only [Line.after_sync_lineflag_after]
    simp only [List.mem_cons, List.not_mem_nil, or_false] at hli
    rcases hli with rfl | rfl | rfl | rfl <;> simp

/-- Witness for `curveloop_label_aggregation`: the constructed unit-square
loop with labels `"A"`, `"A"`, `"B"`, `None`. -/
theorem curveloop_label_aggregation_witness :
    ((arenaSquare.loops.getD 0 dfltLoop).lines = [0, 1, 2, 3] ∧
      (arenaSquare.lines.getD 0 dfltLine).label = some "A" ∧
      (arenaSquare.lines.getD 1 dfltLine).label = some "A" ∧
      (arenaSquare.lines.getD 2 dfltLine).label = some "B" ∧
      (arenaSquare.lines.getD 3 dfltLine).label = none ∧
      ((CurveLoop.before_sync arenaSquare 0 initState).loopSt 0).after_sync_initiated
        = false) ∧
    (∃ dLines dFields : List Event,
      (CurveLoop.after_sync arenaSquare 0
          (CurveLoop.before_sync arenaSquare 0 initState)).trace
        = (CurveLoop.before_sync arenaSquare 0 initState).trace ++ dLines
          ++ [Event.addPhysicalGroup 1
                [((CurveLoop.before_sync arenaSquare 0 initState).lineSt 0).tag.getD 0,
                 ((CurveLoop.before_sync arenaSquare 0 initState).lineSt 1).tag.getD 0]
                (CurveLoop.before_sync arenaSquare 0 initState).nextTag,
              Event.setPhysicalName 1
                (CurveLoop.before_sync arenaSquare 0 initState).nextTag "A",
              Event.addPhysicalGroup 1
                [((CurveLoop.before_sync arenaSquare 0 initState).lineSt 2).tag.getD 0]
                ((CurveLoop.before_sync arenaSquare 0 initState).nextTag + 1),
              Event.setPhysicalName 1
                ((CurveLoop.before_sync arenaSquare 0 initState).nextTag + 1) "B"]
          ++ dFields ∧
      (∀ e ∈ dLines, e.isSetTransfiniteCurve = true) ∧
      (∀ e ∈ dFields, e.isFieldEvent = true) ∧
      countP Event.isAddPhysicalGroup
          (CurveLoop.after_sync arenaSquare 0
            (CurveLoop.before_sync arenaSquare 0 initState)).trace
        = countP Event.isAddPhysicalGroup
            (CurveLoop.before_sync arenaSquare 0 initState).trace + 2 ∧
      (∀ li ∈ [0, 1, 2, 3],
        ((CurveLoop.after_sync arenaSquare 0
          (CurveLoop.before_sync arenaSquare 0 initState)).lineSt li).after_sync_initiated
          = true)) :=
  ⟨⟨by decide, by decide, by decide, by decide, by decide, by decide⟩,
    curveloop_label_aggregation arenaSquare 0
      (CurveLoop.before_sync arenaSquare 0 initState) 0 1 2 3
      (by decide) (by decide) (by decide) (by decide) (by decide) (by decide)⟩

theorem filter_ite_singleton (p : Event → Bool) (c : Prop) [Decidable c] (e : Event) :
    List.filter p (if c then [e] else [])
      = if c then (if p e then [e] else []) else [] := by
  split <;> simp [List.filter_singleton]

/-- C5 (amended): `BoundaryLayer.after_sync` issues the optional `setNumber`
call for an attribute iff the attribute's value is truthy in Python's sense:
for the optional numerics (`aniso_max`, `hfar`, `hwall_n`, `ratio`,
`thickness`) iff it was provided and is nonzero, for the booleans
(`intersect_metrics`, `is_quad_mesh`/quad) iff `true`.  An attribute
explicitly provided as `0.0` (or `False`) is therefore skipped exactly like
an absent one; no attribute is ever set to a locally invented default. -/
theorem boundary_layer_truthy_settings (a : Arena) (fi ci : Nat) (s : GState)
    (hflag : (s.fieldSt fi).after_sync_initiated = false) :
    ∃ d : List Event,
      (BoundaryLayer.after_sync a fi ci s).trace = s.trace ++ d ∧
      d.filter (Event.isFieldSetNumberKey "AnisoMax")
        = (if pyTruthy (a.fields.getD fi dfltBoundaryLayer).aniso_max
           then [Event.fieldSetNumber s.nextTag "AnisoMax"
              ((a.fields.getD fi dfltBoundaryLayer).aniso_max.getD 0)] else []) ∧
      d.filter (Event.isFieldSetNumberKey "IntersectMetrics")
        = (if (a.fields.getD fi dfltBoundaryLayer).intersect_metrics
           then [Event.fieldSetNumber s.nextTag "IntersectMetrics" 1] else []) ∧
      d.filter (Event.isFieldSetNumberKey "Quads")
        = (if (a.fields.getD fi dfltBoundaryLayer).is_quad_mesh
           then [Event.fieldSetNumber s.nextTag "Quads" 1] else []) ∧
      d.filter (Event.isFieldSetNumberKey "hfar")
        = (if pyTruthy (a.fields.getD fi dfltBoundaryLayer).hfar
           then [Event.fieldSetNumber s.nextTag "hfar"
              ((a.fields.getD fi dfltBoundaryLayer).hfar.getD 0)] else []) ∧
      d.filter (Event.isFieldSetNumberKey "hwall_n")
        = (if pyTruthy (a.fields.getD fi dfltBoundaryLayer).hwall_n
           then [Event.fieldSetNumber s.nextTag "hwall_n"
              ((a.fields.getD fi dfltBoundaryLayer).hwall_n.getD 0)] else []) ∧
      d.filter (Event.isFieldSetNumberKey "ratio")
        = (if pyTruthy (a.fields.getD fi dfltBoundaryLayer).ratio
           then [Event.fieldSetNumber s.nextTag "ratio"
              ((a.fields.getD fi dfltBoundaryLayer).ratio.getD 0)] else []) ∧
      d.filter (Event.isFieldSetNumberKey "thickness")
        = (if pyTruthy (a.fields.getD fi dfltBoundaryLayer).thickness
           then [Event.fieldSetNumber s.nextTag "thickness"
              ((a.fields.getD fi dfltBoundaryLayer).thickness.getD 0)] else []) := by
  have hneg : ¬((s.fieldSt fi).after_sync_initiated = true) := by simp [hflag]
  refine ⟨[Event.fieldAdd "BoundaryLayer" s.nextTag,
      Event.fieldSetNumbers s.nextTag "CurvesList" (s.loopLineTags ci)]
      ++ blOptionalSettings (a.fields.getD fi dfltBoundaryLayer) s.nextTag
      ++ [Event.fieldSetAsBoundaryLayer s.nextTag], ?_, ?_, ?_, ?_, ?_, ?_, ?_, ?_⟩
  · simp only [BoundaryLayer.after_sync, if_neg hneg, updField_trace, emit_trace,
      appendEvents_trace, field_add_trace, updField_loopLineTags, field_add_loopLineTags]
    simp [List.append_assoc]
  all_goals
    simp [blOptionalSettings, List.filter_append, filter_ite_singleton, List.filter,
      Event.isFieldSetNumberKey]

/-- C5 counterexample: the caller of `arenaBL`'s boundary layer explicitly
provided `aniso_max = 0.0`, yet `BoundaryLayer.after_sync` issues no
`setNumber("AnisoMax", ...)` call at all — the guard is Python truthiness
(`if self.aniso_max:`), not an is-provided check, so an explicit zero is
silently dropped.  This refutes the claim's "if and only if the caller
explicitly provided a value" direction. -/
theorem boundary_layer_explicit_zero_dropped :
    (arenaBL.fields.getD 0 dfltBoundaryLayer).aniso_max = some 0 ∧
    (BoundaryLayer.after_sync arenaBL 0 0 initState).trace.filter
      (Event.isFieldSetNumberKey "AnisoMax") = [] := by
  constructor
  · rfl
  · rfl

theorem boundary_layer_truthy_settings_witness :
    (initState.fieldSt 0).after_sync_initiated = false ∧
    ∃ d : List Event,
      (BoundaryLayer.after_sync arenaBL 0 0 initState).trace
        = initState.trace ++ d ∧
      d.filter (Event.isFieldSetNumberKey "AnisoMax")
        = (if pyTruthy (arenaBL.fields.getD 0 dfltBoundaryLayer).aniso_max
           then [Event.fieldSetNumber initState.nextTag "AnisoMax"
              ((arenaBL.fields.getD 0 dfltBoundaryLayer).aniso_max.getD 0)]
           else []) :=
  ⟨rfl, (boundary_layer_truthy_settings arenaBL 0 0 initState rfl).imp
    (fun _ h => ⟨h.1, h.2.1⟩)⟩

/-- C6 counterexample: on the constructed unit-square
`TransfinitePlaneSurface` of `arenaTS`, refinement emits the
`setTransfiniteSurface` constraint FIRST and only then the base
`PlaneSurface` refinement actions (physical group, name, recombine) — the
claim's ordering ("base refinement first, constraint afterwards") is the
reverse of what the code does: `TransfinitePlaneSurface.after_sync` calls
`set_transfinite_surface` before `super().after_sync()`. -/
theorem transfinite_surface_order_counterexample :
    (surface_after_sync_dispatch arenaTS 0
        (PlaneSurface.before_sync arenaTS 0 initState)).trace
      = (PlaneSurface.before_sync arenaTS 0 initState).trace
        ++ [Event.setTransfiniteSurface 10 [1, 2, 4, 6],
            Event.addPhysicalGroup 2 [10] 11,
            Event.setPhysicalName 2 11 "domain",
            Event.setRecombine 2 10] := by
  rfl

/-- C6 (amended): for a not-yet-refined `TransfinitePlaneSurface`, refinement
applies the structured-surface constraint (with the declared corner point
tags) FIRST, and only afterwards performs the full base `PlaneSurface`
refinement; the whole call equals the base refinement run from the state in
which the constraint has just been issued, and the base part emits no further
transfinite-surface constraint. -/
theorem transfinite_surface_constraint_first (a : Arena) (si : Nat) (s : GState)
    (cs : List Nat) (hc : (a.surfaces.getD si dfltSurface).corners = some cs)
    (hflag : (s.surfaceSt si).after_sync_initiated = false) :
    surface_after_sync_dispatch a si s
      = PlaneSurface.after_sync a si
          (emit (.setTransfiniteSurface ((s.surfaceSt si).tag.getD 0)
            (cs.map (fun pi => (s.pointSt pi).tag.getD 0))) s) ∧
    ∃ d : List Event,
      (surface_after_sync_dispatch a si s).trace
        = s.trace ++ Event.setTransfiniteSurface ((s.surfaceSt si).tag.getD 0)
            (cs.map (fun pi => (s.pointSt pi).tag.getD 0)) :: d ∧
      ∀ e ∈ d, e.isRefinement = true ∧ e.isSetTransfiniteSurface = false := by
  have hneg : ¬((s.surfaceSt si).after_sync_initiated = true) := by simp [hflag]
  have heq : surface_after_sync_dispatch a si s
      = PlaneSurface.after_sync a si
          (emit (.setTransfiniteSurface ((s.surfaceSt si).tag.getD 0)
            (cs.map (fun pi => (s.pointSt pi).tag.getD 0))) s) := by
    simp only [surface_after_sync_dispatch, hc, TransfinitePlaneSurface.after_sync,
      if_neg hneg, Option.getD_some]
  refine ⟨heq, ?_⟩
  obtain ⟨d, hd, hm⟩ := PlaneSurface_after_sync_ext a si
    (emit (.setTransfiniteSurface ((s.surfaceSt si).tag.getD 0)
      (cs.map (fun pi => (s.pointSt pi).tag.getD 0))) s)
  refine ⟨d, ?_, fun e he => ?_⟩
  · rw [heq, hd]
    simp [emit_trace]
  · have h2 := hm e he
    rw [Bool.and_eq_true, Bool.not_eq_true'] at h2
    exact h2

theorem transfinite_surface_constraint_first_witness :
    (arenaTS.surfaces.getD 0 dfltSurface).corners = some [0, 1, 2, 3] ∧
    (((PlaneSurface.before_sync arenaTS 0 initState).surfaceSt 0).after_sync_initiated
      = false) ∧
    surface_after_sync_dispatch arenaTS 0 (PlaneSurface.before_sync arenaTS 0 initState)
      = PlaneSurface.after_sync arenaTS 0
          (emit (.setTransfiniteSurface
            (((PlaneSurface.before_sync arenaTS 0 initState).surfaceSt 0).tag.getD 0)
            ([0, 1, 2, 3].map (fun pi =>
              ((PlaneSurface.before_sync arenaTS 0 initState).pointSt pi).tag.getD 0)))
            (PlaneSurface.before_sync arenaTS 0 initState)) :=
  ⟨rfl, rfl,
    (transfinite_surface_constraint_first arenaTS 0
      (PlaneSurface.before_sync arenaTS 0 initState) [0, 1, 2, 3] rfl rfl).1⟩

/-! ### `get_points_and_lines`: the cycle invariant and mesh-size re-binding -/

theorem getD_append_left {α : Type} (l l' : List α) (d : α) (n : Nat)
    (h : n < l.length) : (l ++ l').getD n d = l.getD n d := by
  induction l generalizing n with
  | nil => simp at h
  | cons x xs ih =>
      cases n with
      | zero => rfl
      | succ m =>
          simp only [List.cons_append, List.getD_cons_succ]
          exact ih m (by simpa using h)

theorem getD_concat_length {α : Type} (l : List α) (a d : α) :
    (l ++ [a]).getD l.length d = a := by
  induction l with
  | nil => rfl
  | cons x xs ih => simpa using ih

theorem range'_split_last (s n : Nat) :
    List.range' s (n + 1) = List.range' s n ++ [s + n] := by
  induction n generalizing s with
  | zero => simp [List.range']
  | succ n ih =>
      rw [List.range'_succ, ih (s + 1), List.range'_succ]
      have : s + 1 + n = s + (n + 1) := by omega
      simp [this]

theorem gplFold_append (coords : List (List Rat)) (lb : Option (NumOrList String))
    (cc : Option (NumOrList Int)) (mt : Option (NumOrList String))
    (mc : Option (NumOrList Rat)) (l1 l2 : List Nat) (st : GplSt) :
    gplFold coords lb cc mt mc (l1 ++ l2) st
      = (gplFold coords lb cc mt mc l1 st).bind (gplFold coords lb cc mt mc l2) := by
  induction l1 generalizing st with
  | nil => simp [gplFold]
  | cons i rest ih =>
      simp only [List.cons_append, gplFold]
      cases gplStep coords lb cc mt mc i st with
      | none => simp
      | some st1 => simp [ih]

theorem gplStep_zero_inv (coords : List (List Rat)) (lb : Option (NumOrList String))
    (cc : Option (NumOrList Int)) (mt : Option (NumOrList String))
    (mc : Option (NumOrList Rat)) (ms0 : NumOrList Rat) (st' : GplSt)
    (h : gplStep coords lb cc mt mc 0
        { ms := ms0, points := [], lines := [], line_index := 0 } = some st') :
    1 ≤ coords.length ∧ GplInv ms0.headScalar 1 st' := by
  cases coords with
  | nil =>
      cases ms0 with
      | scalar x => simp [gplStep] at h
      | list l =>
          cases hl : l[0]? with
          | none => simp [gplStep, hl] at h
          | some w => simp [gplStep, hl] at h
  | cons c0 cs =>
      cases ms0 with
      | scalar x =>
          simp [gplStep] at h
          subst h
          refine ⟨Nat.succ_le_succ (Nat.zero_le _), rfl, rfl, rfl, rfl,
            fun j hj => absurd hj (by omega), ?_⟩
          intro p hp
          simp only [List.mem_singleton] at hp
          subst hp
          rfl
      | list l =>
          cases hl : l[0]? with
          | none => simp [gplStep, hl] at h
          | some w =>
              simp [gplStep, hl] at h
              subst h
              refine ⟨Nat.succ_le_succ (Nat.zero_le _), ?_, rfl, rfl, rfl,
                fun j hj => absurd hj (by omega), ?_⟩
              · simp [NumOrList.headScalar, hl]
              · intro p hp
                simp only [List.mem_singleton] at hp
                subst hp
                simp [NumOrList.headScalar, hl]

theorem gplStep_middle (coords : List (List Rat)) (lb : Option (NumOrList String))
    (cc : Option (NumOrList Int)) (mt : Option (NumOrList String))
    (mc : Option (NumOrList Rat)) (w : Rat) (i : Nat) (st st' : GplSt)
    (hi : 1 ≤ i) (hlt : i < coords.length) (hinv : GplInv w i st)
    (h : gplStep coords lb cc mt mc i st = some st') :
    GplInv w (i + 1) st' := by
  obtain ⟨hms, hpl, hll, hli, hlines, hmesh⟩ := hinv
  have hne : ¬ i = coords.length := Nat.ne_of_lt hlt
  have hne0 : ¬ i = 0 := by omega
  rcases hc : coords[i]? with _ | c
  · rw [List.getElem?_eq_none_iff] at hc
    omega
  · rcases ho : gplLineOpts lb cc mt mc st.line_index with _ | opts
    · simp [gplStep, hms, hne, hne0, hc, ho] at h
    · have hif : i - 1 < st.points.length + 1 := by omega
      simp [gplStep, hms, hne, hne0, hc, ho, hif] at h
      subst h
      refine ⟨rfl, ?_, ?_, ?_, ?_, ?_⟩
      · simp [hpl]
      · simp [hll]
        omega
      · simp [hli]
        omega
      · intro j hj
        by_cases hj2 : j + 1 < i
        · have hj3 : j < st.lines.length := by omega
          simp only [getD_append_left st.lines _ dfltLine j hj3]
          exact hlines j hj2
        · have hje : j = i - 1 := by omega
          subst hje
          rw [show i - 1 = st.lines.length from by omega, getD_concat_length]
          constructor
          · simp
          · simp [hpl]
            omega
      · intro p hp
        rcases List.mem_append.mp hp with hp1 | hp1
        · exact hmesh p hp1
        · simp only [List.mem_singleton] at hp1
          subst hp1
          rfl

theorem gplFold_range'_inv (coords : List (List Rat)) (lb : Option (NumOrList String))
    (cc : Option (NumOrList Int)) (mt : Option (NumOrList String))
    (mc : Option (NumOrList Rat)) (w : Rat) (k : Nat) :
    ∀ (i : Nat) (st st' : GplSt), 1 ≤ i → i + k ≤ coords.length →
      GplInv w i st →
      gplFold coords lb cc mt mc (List.range' i k) st = some st' →
      GplInv w (i + k) st' := by
  induction k with
  | zero =>
      intro i st st' _ _ hinv h
      simp only [List.range', gplFold] at h
      cases h
      simpa using hinv
  | succ k ih =>
      intro i st st' hi hle hinv h
      simp only [List.range', gplFold] at h
      cases hstep : gplStep coords lb cc mt mc i st with
      | none => rw [hstep] at h; simp at h
      | some st1 =>
          rw [hstep] at h
          simp only [Option.some_bind] at h
          have hinv1 := gplStep_middle coords lb cc mt mc w i st st1 hi (by omega)
            ⟨hinv.1, hinv.2.1, hinv.2.2.1, hinv.2.2.2.1, hinv.2.2.2.2.1, hinv.2.2.2.2.2⟩
            hstep
          have hres := ih (i + 1) st1 st' (by omega) (by omega) hinv1 h
          have harith : i + (k + 1) = (i + 1) + k := by omega
          rw [harith]
          exact hres

theorem gplStep_last (coords : List (List Rat)) (lb : Option (NumOrList String))
    (cc : Option (NumOrList Int)) (mt : Option (NumOrList String))
    (mc : Option (NumOrList Rat)) (w : Rat) (st st' : GplSt)
    (hn : 1 ≤ coords.length)
    (hinv : GplInv w coords.length st)
    (h : gplStep coords lb cc mt mc coords.length st = some st') :
    st'.points = st.points ∧
    ∃ opts : Option String × Option TransfiniteData,
      st'.lines = st.lines
        ++ [{ start := coords.length - 1, endp := 0, label := opts.1,
              transfinite := opts.2 }] := by
  obtain ⟨hms, hpl, hll, hli, hlines, hmesh⟩ := hinv
  cases hp : st.points with
  | nil => rw [hp] at hpl; simp at hpl; omega
  | cons p0 prest =>
      have hne0 : ¬ coords.length = 0 := by omega
      rcases ho : gplLineOpts lb cc mt mc st.line_index with _ | opts
      · simp [gplStep, hms, hne0, hp, ho] at h
      · have hpl' : prest.length + 1 = coords.length := by
          rw [hp] at hpl
          simpa using hpl
        have hif : coords.length - 1 < prest.length + 1 := by omega
        simp [gplStep, hms, hne0, hp, ho, hif] at h
        subst h
        refine ⟨?_, opts, ?_⟩
        · simp [hp]
        · simp

theorem gpl_decomp (coords : List (List Rat)) (ms0 : NumOrList Rat)
    (lb : Option (NumOrList String)) (cc : Option (NumOrList Int))
    (mt : Option (NumOrList String)) (mc : Option (NumOrList Rat))
    (ps : List Point) (ls : List Line)
    (h : get_points_and_lines coords ms0 lb cc mt mc = some (ps, ls)) :
    ∃ st2 : GplSt, ∃ opts : Option String × Option TransfiniteData,
      1 ≤ coords.length ∧
      GplInv ms0.headScalar coords.length st2 ∧
      ps = st2.points ∧
      ls = st2.lines ++ [{ start := coords.length - 1, endp := 0,
                           label := opts.1, transfinite := opts.2 }] := by
  unfold get_points_and_lines at h
  rcases hfold : gplFold coords lb cc mt mc (List.range (coords.length + 1))
      { ms := ms0, points := [], lines := [], line_index := 0 } with _ | stF
  · rw [hfold] at h; simp at h
  · rw [hfold] at h
    simp only [Option.map_some'] at h
    have hps : stF.points = ps := congrArg Prod.fst (Option.some.inj h)
    have hls : stF.lines = ls := congrArg Prod.snd (Option.some.inj h)
    rw [List.range_eq_range'] at hfold
    rw [show List.range' 0 (coords.length + 1)
        = 0 :: List.range' 1 coords.length from by rw [List.range'_succ]] at hfold
    simp only [gplFold] at hfold
    cases h0 : gplStep coords lb cc mt mc 0
        { ms := ms0, points := [], lines := [], line_index := 0 } with
    | none => rw [h0] at hfold; simp at hfold
    | some st1 =>
        rw [h0] at hfold
        simp only [Option.some_bind] at hfold
        obtain ⟨hn, hinv1⟩ := gplStep_zero_inv coords lb cc mt mc ms0 st1 h0
        have hsplit : List.range' 1 coords.length
            = List.range' 1 (coords.length - 1) ++ [coords.length] := by
          have h1 : coords.length - 1 + 1 = coords.length := by omega
          calc List.range' 1 coords.length
              = List.range' 1 ((coords.length - 1) + 1) := by rw [h1]
            _ = List.range' 1 (coords.length - 1) ++ [1 + (coords.length - 1)] :=
                range'_split_last 1 _
            _ = List.range' 1 (coords.length - 1) ++ [coords.length] := by
                rw [show 1 + (coords.length - 1) = coords.length from by omega]
        rw [hsplit] at hfold
        rw [gplFold_append] at hfold
        cases h1 : gplFold coords lb cc mt mc (List.range' 1 (coords.length - 1)) st1 with
        | none => rw [h1] at hfold; simp at hfold
        | some st2 =>
            rw [h1] at hfold
            simp only [Option.some_bind, gplFold] at hfold
            cases h2 : gplStep coords lb cc mt mc coords.length st2 with
            | none => rw [h2] at hfold; simp at hfold
            | some stF' =>
                rw [h2] at hfold
                simp only [Option.some_bind, gplFold] at hfold
                cases hfold
                have hinv2 := gplFold_range'_inv coords lb cc mt mc ms0.headScalar
                  (coords.length - 1) 1 st1 st2 le_rfl (by omega) hinv1 h1
                rw [show 1 + (coords.length - 1) = coords.length from by omega] at hinv2
                obtain ⟨hpts, opts, hlines'⟩ := gplStep_last coords lb cc mt mc
                  ms0.headScalar st2 stF hn hinv2 h2
                exact ⟨st2, opts, hn, hinv2, by rw [← hps, hpts],
                  by rw [← hls, hlines']⟩

/-- C9: for a coordinate array with `n ≥ 1` rows, a successful
`get_points_and_lines` returns exactly `n` points and `n` lines; line `j`
runs from point `j` to point `j + 1` for `j < n - 1` and the last line runs
from point `n - 1` back to point `0`, so every line's endpoint is point
`(j + 1) % n`: the returned lines form a closed cycle by construction. -/
theorem get_points_and_lines_cycle (coords : List (List Rat)) (ms0 : NumOrList Rat)
    (lb : Option (NumOrList String)) (cc : Option (NumOrList Int))
    (mt : Option (NumOrList String)) (mc : Option (NumOrList Rat))
    (ps : List Point) (ls : List Line)
    (hn : 1 ≤ coords.length)
    (h : get_points_and_lines coords ms0 lb cc mt mc = some (ps, ls)) :
    ps.length = coords.length ∧ ls.length = coords.length ∧
    (∀ j, j + 1 < coords.length →
      (ls.getD j dfltLine).start = j ∧ (ls.getD j dfltLine).endp = j + 1) ∧
    (ls.getD (coords.length - 1) dfltLine).start = coords.length - 1 ∧
    (ls.getD (coords.length - 1) dfltLine).endp = 0 ∧
    (∀ j, j < coords.length →
      (ls.getD j dfltLine).endp = (j + 1) % coords.length) := by
  obtain ⟨st2, opts, hn', hinv, hps, hls⟩ := gpl_decomp coords ms0 lb cc mt mc ps ls h
  obtain ⟨_, hpl, hll, _, hlines, _⟩ := hinv
  subst hps
  subst hls
  refine ⟨hpl, ?_, ?_, ?_, ?_, ?_⟩
  · simp only [List.length_append, List.length_singleton, hll]
    omega
  · intro j hj
    rw [getD_append_left st2.lines _ dfltLine j (by omega)]
    exact hlines j hj
  · rw [show coords.length - 1 = st2.lines.length from by omega, getD_concat_length]
  · rw [show coords.length - 1 = st2.lines.length from by omega, getD_concat_length]
  · intro j hj
    by_cases hj2 : j + 1 < coords.length
    · rw [getD_append_left st2.lines _ dfltLine j (by omega)]
      rw [(hlines j hj2).2, Nat.mod_eq_of_lt hj2]
    · have hje : j = coords.length - 1 := by omega
      subst hje
      rw [show coords.length - 1 = st2.lines.length from by omega, getD_concat_length]
      have hlen : st2.lines.length + 1 = coords.length := by omega
      simp [hlen]

theorem get_points_and_lines_cycle_witness :
    1 ≤ ([[0, 0], [1, 0], [0, 1]] : List (List Rat)).length ∧
    get_points_and_lines [[0, 0], [1, 0], [0, 1]] (.scalar 1) none none none none
      = some ([{ coord := [0, 0], mesh_size := 1 }, { coord := [1, 0], mesh_size := 1 },
               { coord := [0, 1], mesh_size := 1 }],
              [{ start := 0, endp := 1 }, { start := 1, endp := 2 },
               { start := 2, endp := 0 }]) ∧
    (∀ j, j < ([[0, 0], [1, 0], [0, 1]] : List (List Rat)).length →
      (([{ start := 0, endp := 1 }, { start := 1, endp := 2 },
         { start := 2, endp := 0 }] : List Line).getD j dfltLine).endp
        = (j + 1) % ([[0, 0], [1, 0], [0, 1]] : List (List Rat)).length) :=
  have happ := get_points_and_lines_cycle [[0, 0], [1, 0], [0, 1]] (.scalar 1)
    none none none none
    [{ coord := [0, 0], mesh_size := 1 }, { coord := [1, 0], mesh_size := 1 },
     { coord := [0, 1], mesh_size := 1 }]
    [{ start := 0, endp := 1 }, { start := 1, endp := 2 }, { start := 2, endp := 0 }]
    (by decide) (by decide)
  ⟨by decide, by decide, happ.2.2.2.2.2⟩

/-- C10: when `mesh_size` is passed as a list, the loop re-binds the
`mesh_size` variable to its element `0` on the first iteration (the
subscript `mesh_size[i]` is only evaluated while the variable is still a
list, i.e. at `i = 0`), so every returned point is constructed with mesh
size equal to the list's FIRST element, whatever the other entries are. -/
theorem get_points_and_lines_mesh_size_first (coords : List (List Rat))
    (msl : List Rat) (lb : Option (NumOrList String)) (cc : Option (NumOrList Int))
    (mt : Option (NumOrList String)) (mc : Option (NumOrList Rat))
    (ps : List Point) (ls : List Line)
    (h : get_points_and_lines coords (.list msl) lb cc mt mc = some (ps, ls)) :
    ∀ p ∈ ps, p.mesh_size = msl.getD 0 0 := by
  obtain ⟨st2, opts, hn, hinv, hps, hls⟩ :=
    gpl_decomp coords (.list msl) lb cc mt mc ps ls h
  subst hps
  exact hinv.2.2.2.2.2

theorem get_points_and_lines_mesh_size_first_witness :
    get_points_and_lines [[0, 0], [1, 0]] (.list [5, 7]) none none none none
      = some ([{ coord := [0, 0], mesh_size := 5 }, { coord := [1, 0], mesh_size := 5 }],
              [{ start := 0, endp := 1 }, { start := 1, endp := 0 }]) ∧
    ∀ p ∈ ([{ coord := [0, 0], mesh_size := 5 },
            { coord := [1, 0], mesh_size := 5 }] : List Point),
      p.mesh_size = ([5, 7] : List Rat).getD 0 0 :=
  ⟨by decide,
    get_points_and_lines_mesh_size_first [[0, 0], [1, 0]] [5, 7] none none none none
      [{ coord := [0, 0], mesh_size := 5 }, { coord := [1, 0], mesh_size := 5 }]
      [{ start := 0, endp := 1 }, { start := 1, endp := 0 }] (by decide)⟩
